import Mathlib

/-!
# Verification of the sendspin-cli synchronized audio player

Shallow embedding of the playback engine in `src/sendspin/audio.py`
(`AudioPlayer`).  Python integers become `ℤ`/`ℕ`; Python float arithmetic
in the corrector and the calibration estimators becomes exact `ℚ`
arithmetic; the 16-bit volume scaling (`numpy` double multiply followed by
a cast toward zero) is embedded exactly through an integer square-root
characterisation.  The `SendspinTimeFilter` sync-error smoother is an
external library (`aiosendspin`), not part of this repository: its output
(the filtered error cached in `_sync_error_filtered_us`) is injected as a
parameter wherever the source reads it.  The asyncio queue becomes a
`List`; blocking, logging and the sounddevice stream object are not
modelled (they touch no field any claim mentions).  Loops of the source
(`_read_input_frames_bulk`, `_skip_input_frames`, the slow correction
path of `_audio_callback`) are embedded with an explicit fuel parameter
that callers instantiate above the source loops' iteration bounds.
-/

/-- PCM format: the two fields of `PCMFormat` the player reads
(`sample_rate`, `frame_size`). -/
structure PCMFormat where
  sample_rate : ℕ
  frame_size : ℕ
deriving DecidableEq

/-- `_QueuedChunk`: a server timestamp plus raw PCM bytes
(bytes are modelled as `List ℕ`). -/
structure QueuedChunk where
  server_timestamp_us : ℤ
  audio_data : List ℕ
deriving DecidableEq

/-- `PlaybackState` enum from `audio.py`. -/
inductive PlaybackState where
  | INITIALIZING
  | WAITING_FOR_START
  | PLAYING
  | REANCHORING
deriving DecidableEq

/-- The mutable fields of `AudioPlayer` that the playback engine reads or
writes (logging rate-limit counters and the sounddevice stream handle are
omitted: no modelled code path reads them). -/
structure AudioPlayer where
  format : Option PCMFormat
  queue : List QueuedChunk
  current_chunk : Option QueuedChunk
  current_chunk_offset : ℕ
  expected_next_timestamp : Option ℤ
  queued_duration_us : ℤ
  playback_state : PlaybackState
  scheduled_start_loop_time_us : Option ℤ
  scheduled_start_dac_time_us : Option ℤ
  server_ts_cursor_us : ℤ
  server_ts_cursor_remainder : ℕ
  first_server_timestamp_us : Option ℤ
  early_start_suspect : Bool
  has_reanchored : Bool
  insert_every_n_frames : ℕ
  drop_every_n_frames : ℕ
  frames_until_next_insert : ℤ
  frames_until_next_drop : ℤ
  last_output_frame : List ℕ
  sync_error_filtered_us : ℚ
  last_reanchor_loop_time_us : ℤ
  last_known_playback_position_us : ℤ
  dac_loop_calibrations : List (ℤ × ℤ)
  last_dac_calibration_time_us : ℤ
  clear_requested : Bool
deriving DecidableEq

/-- `AudioPlayer.__init__` (after `set_format`): every counter zeroed,
every option empty, state `INITIALIZING`. -/
def initPlayer (format : Option PCMFormat) : AudioPlayer where
  format := format
  queue := []
  current_chunk := none
  current_chunk_offset := 0
  expected_next_timestamp := none
  queued_duration_us := 0
  playback_state := .INITIALIZING
  scheduled_start_loop_time_us := none
  scheduled_start_dac_time_us := none
  server_ts_cursor_us := 0
  server_ts_cursor_remainder := 0
  first_server_timestamp_us := none
  early_start_suspect := false
  has_reanchored := false
  insert_every_n_frames := 0
  drop_every_n_frames := 0
  frames_until_next_insert := 0
  frames_until_next_drop := 0
  last_output_frame := []
  sync_error_filtered_us := 0
  last_reanchor_loop_time_us := 0
  last_known_playback_position_us := 0
  dac_loop_calibrations := []
  last_dac_calibration_time_us := 0
  clear_requested := false

/-- `AudioPlayer.clear` (audio.py lines 323-365): drain the queue and
reset the playback, scheduling, cursor, cadence, calibration and sync
state, lowering the deferred clear flag. -/
def AudioPlayer.clear (s : AudioPlayer) : AudioPlayer :=
  { s with
    clear_requested := false
    queue := []
    playback_state := .INITIALIZING
    current_chunk := none
    current_chunk_offset := 0
    expected_next_timestamp := none
    queued_duration_us := 0
    dac_loop_calibrations := []
    last_known_playback_position_us := 0
    last_dac_calibration_time_us := 0
    scheduled_start_loop_time_us := none
    scheduled_start_dac_time_us := none
    server_ts_cursor_us := 0
    server_ts_cursor_remainder := 0
    first_server_timestamp_us := none
    early_start_suspect := false
    has_reanchored := false
    insert_every_n_frames := 0
    drop_every_n_frames := 0
    frames_until_next_insert := 0
    frames_until_next_drop := 0
    last_output_frame := []
    sync_error_filtered_us := 0
    last_reanchor_loop_time_us := 0 }

/-- `AudioPlayer._advance_server_cursor_frames`: add `frames·1e6` to the
microsecond remainder and carry whole multiples of `sample_rate` into the
cursor. -/
def AudioPlayer.advance_server_cursor_frames (s : AudioPlayer) (frames : ℕ) : AudioPlayer :=
  match s.format with
  | none => s
  | some f =>
    if frames = 0 then s
    else
      let rem := s.server_ts_cursor_remainder + frames * 1000000
      if f.sample_rate ≤ rem then
        { s with
          server_ts_cursor_us := s.server_ts_cursor_us + (rem / f.sample_rate : ℕ)
          server_ts_cursor_remainder := rem % f.sample_rate }
      else { s with server_ts_cursor_remainder := rem }

/-- `AudioPlayer._initialize_current_chunk`: pop the queue head into the
current chunk, rebasing the server cursor when it is still zero.  Callers
in the source only reach this with a non-empty queue. -/
def AudioPlayer.initialize_current_chunk (s : AudioPlayer) : AudioPlayer :=
  match s.queue with
  | [] => s
  | c :: rest =>
    let s1 := { s with queue := rest, current_chunk := some c, current_chunk_offset := 0 }
    if s1.server_ts_cursor_us = 0 then
      { s1 with server_ts_cursor_us := c.server_timestamp_us }
    else s1

/-- `AudioPlayer._advance_finished_chunk`: subtract the finished chunk's
duration from the buffered-duration counter and drop the chunk. -/
def AudioPlayer.advance_finished_chunk (s : AudioPlayer) : AudioPlayer :=
  match s.format, s.current_chunk with
  | some f, some c =>
    let chunk_frames := c.audio_data.length / f.frame_size
    let chunk_duration_us : ℤ := ((chunk_frames * 1000000) / f.sample_rate : ℕ)
    { s with
      queued_duration_us := max 0 (s.queued_duration_us - chunk_duration_us)
      current_chunk := none
      current_chunk_offset := 0 }
  | _, _ => s

/-- `AudioPlayer._read_one_input_frame`: consume one frame from the
current chunk (loading the next chunk first if needed), advancing the
cursor by one frame; returns `none` when no data is available. -/
def AudioPlayer.read_one_input_frame (s : AudioPlayer) : AudioPlayer × Option (List ℕ) :=
  match s.format with
  | none => (s, none)
  | some f =>
    if f.frame_size = 0 then (s, none)
    else
      let s1 :=
        if s.current_chunk = none then
          if s.queue = [] then s else s.initialize_current_chunk
        else s
      match s1.current_chunk with
      | none => (s1, none)
      | some c =>
        if c.audio_data.length ≤ s1.current_chunk_offset then
          (s1.advance_finished_chunk, none)
        else
          let start := s1.current_chunk_offset
          let stop := min (start + f.frame_size) c.audio_data.length
          let frame := (c.audio_data.drop start).take (stop - start)
          let s2 := { s1 with current_chunk_offset := stop }
          let s2 := s2.advance_server_cursor_frames 1
          let s2 := if c.audio_data.length ≤ stop then s2.advance_finished_chunk else s2
          (s2, some (frame ++ List.replicate (f.frame_size - frame.length) 0))

/-- Loop body of `AudioPlayer._read_input_frames_bulk`.  `acc` is the
real bytes copied so far (`bytes_written = acc.length`); the returned
`ℕ` is the number of silence bytes padded after a queue underrun.  The
fuel bounds the iteration count; the source loop performs at most one
iteration per queued chunk plus one per requested frame. -/
def readBulkGo (f : PCMFormat) (total : ℕ) :
    ℕ → AudioPlayer → List ℕ → AudioPlayer × List ℕ × ℕ
  | 0, s, acc => (s, acc, 0)
  | fuel + 1, s, acc =>
    if total ≤ acc.length then (s, acc, 0)
    else
      match s.current_chunk with
      | none =>
        if s.queue = [] then (s, acc, total - acc.length)
        else readBulkGo f total fuel s.initialize_current_chunk acc
      | some c =>
        let available := c.audio_data.length - s.current_chunk_offset
        let bytes_to_read := min available (total - acc.length)
        let acc1 := acc ++ (c.audio_data.drop s.current_chunk_offset).take bytes_to_read
        let s1 := { s with current_chunk_offset := s.current_chunk_offset + bytes_to_read }
        let s1 := s1.advance_server_cursor_frames (bytes_to_read / f.frame_size)
        let s1 :=
          if c.audio_data.length ≤ s1.current_chunk_offset then s1.advance_finished_chunk
          else s1
        readBulkGo f total fuel s1 acc1

/-- `AudioPlayer._read_input_frames_bulk`: bulk-copy `n_frames` frames
out of the queue, padding with silence when the queue runs dry, and
record the final real frame in `_last_output_frame`. -/
def AudioPlayer.read_input_frames_bulk (s : AudioPlayer) (n_frames : ℕ) (fuel : ℕ) :
    AudioPlayer × List ℕ :=
  match s.format with
  | none => (s, [])
  | some f =>
    if n_frames = 0 then (s, [])
    else
      let total := n_frames * f.frame_size
      let (s1, acc, padded) := readBulkGo f total fuel s []
      let s1 :=
        if f.frame_size ≤ acc.length then
          { s1 with last_output_frame := acc.drop (acc.length - f.frame_size) }
        else s1
      (s1, acc ++ List.replicate padded 0)

/-- Loop body of `AudioPlayer._skip_input_frames`. -/
def skipGo (f : PCMFormat) : ℕ → AudioPlayer → ℕ → AudioPlayer
  | 0, s, _ => s
  | fuel + 1, s, toSkip =>
    if toSkip = 0 then s
    else
      match s.current_chunk with
      | none =>
        if s.queue = [] then s
        else skipGo f fuel s.initialize_current_chunk toSkip
      | some c =>
        let rem_frames := (c.audio_data.length - s.current_chunk_offset) / f.frame_size
        if rem_frames = 0 then skipGo f fuel s.advance_finished_chunk toSkip
        else
          let take := min rem_frames toSkip
          let s1 := { s with current_chunk_offset := s.current_chunk_offset + take * f.frame_size }
          let s1 := s1.advance_server_cursor_frames take
          let s1 :=
            if c.audio_data.length ≤ s1.current_chunk_offset then s1.advance_finished_chunk
            else s1
          skipGo f fuel s1 (toSkip - take)

/-- `AudioPlayer._skip_input_frames`: discard input frames (the source's
chunk-popping inline code is `_initialize_current_chunk` verbatim). -/
def AudioPlayer.skip_input_frames (s : AudioPlayer) (frames_to_skip : ℕ) (fuel : ℕ) :
    AudioPlayer :=
  match s.format with
  | none => s
  | some f => if frames_to_skip = 0 then s else skipGo f fuel s frames_to_skip

/-- Second-to-last calibration pair, `(0, 0)` when fewer than two exist
(mirrors `self._dac_loop_calibrations[-2]` guarded by the length check). -/
def prevCalib (l : List (ℤ × ℤ)) : ℤ × ℤ :=
  if 2 ≤ l.length then (l.dropLast.getLast?).getD (0, 0) else (0, 0)

/-- Python `round` (round half to even) of the exact rational `a / b`
(for `b > 0`), used to embed the source's float `round(...)` calls. -/
def pyRound (a b : ℤ) : ℤ :=
  let q := a.fdiv b
  let r := a.fmod b
  if 2 * r < b then q
  else if b < 2 * r then q + 1
  else if q % 2 = 0 then q else q + 1

/-- The slope clamp `max(0.999, min(1.001, n0 / d0))`
(`_DAC_PER_LOOP_MIN`/`_DAC_PER_LOOP_MAX`) as an exact fraction with a
positive denominator (`d0 ≠ 0` at every call site, guarded by the
source). -/
def clampSlope (n0 d0 : ℤ) : ℤ × ℤ :=
  let n := if d0 < 0 then -n0 else n0
  let d := if d0 < 0 then -d0 else d0
  if n * 1000 < 999 * d then (999, 1000)
  else if 1001 * d < n * 1000 then (1001, 1000)
  else (n, d)

/-- `AudioPlayer._estimate_dac_time_for_server_timestamp`, with the
clock-mapper callable passed explicitly.  The source's float expression
`round(dac_ref_us + (loop_time_us - loop_ref_us) * dac_per_loop)` is
embedded exactly: with `dac_per_loop = sn/sd`, it is
`pyRound (dac_ref·sd + (loop_time - loop_ref)·sn) sd`. -/
def AudioPlayer.estimate_dac_time_for_server_timestamp
    (s : AudioPlayer) (compute_client_time : ℤ → ℤ) (server_timestamp_us : ℤ) : ℤ :=
  if s.last_dac_calibration_time_us = 0 then 0
  else
    let loop_time_us := compute_client_time server_timestamp_us
    match s.dac_loop_calibrations.getLast? with
    | none => 0
    | some (dac_ref, loop_ref) =>
      if loop_ref = 0 then 0
      else
        let p := prevCalib s.dac_loop_calibrations
        let dac_per_loop : ℤ × ℤ :=
          if p.2 ≠ 0 ∧ p.1 ≠ 0 ∧ loop_ref ≠ p.2 then
            clampSlope (dac_ref - p.1) (loop_ref - p.2)
          else (1, 1)
        pyRound (dac_ref * dac_per_loop.2 + (loop_time_us - loop_ref) * dac_per_loop.1)
          dac_per_loop.2

/-- `AudioPlayer._estimate_loop_time_for_dac_time` (note the source
guards this slope only on `dac_prev_us` being non-zero). -/
def AudioPlayer.estimate_loop_time_for_dac_time
    (s : AudioPlayer) (dac_time_us : ℤ) : ℤ :=
  match s.dac_loop_calibrations.getLast? with
  | none => 0
  | some (dac_ref, loop_ref) =>
    if loop_ref = 0 then 0
    else
      let p := prevCalib s.dac_loop_calibrations
      let loop_per_dac : ℤ × ℤ :=
        if p.1 ≠ 0 ∧ dac_ref ≠ p.1 then
          clampSlope (loop_ref - p.2) (dac_ref - p.1)
        else (1, 1)
      pyRound (loop_ref * loop_per_dac.2 + (dac_time_us - dac_ref) * loop_per_dac.1)
        loop_per_dac.2

/-- Append to the calibration deque (`maxlen=100`). -/
def pushCalib (l : List (ℤ × ℤ)) (p : ℤ × ℤ) : List (ℤ × ℤ) :=
  let l1 := l ++ [p]
  if l1.length ≤ 100 then l1 else l1.drop (l1.length - 100)

/-- `time.outputBufferDacTime` converted to microseconds (the source
multiplies the float seconds by 1e6 and truncates to `int`; the embedding
takes the resulting integer directly). -/
structure TimeInfo where
  outputBufferDacTime_us : ℤ
deriving DecidableEq

/-- The sounddevice status flags the callback inspects. -/
structure CallbackStatus where
  input_underflow : Bool
  output_underflow : Bool
deriving DecidableEq

/-- Per-callback environment: the value of `loop.time()·1e6` during this
callback and the two clock-mapper callables held by the player. -/
structure CallbackEnv where
  loop_time_us : ℤ
  compute_client_time : ℤ → ℤ
  compute_server_time : ℤ → ℤ

/-- `AudioPlayer._update_playback_position_from_dac`: push a calibration
pair, refresh the playback position from the latest calibration, and
backfill the DAC-anchored scheduled start when it is still unset.  A
`none` time argument models the `AttributeError` path (no update at all). -/
def AudioPlayer.update_playback_position_from_dac
    (s : AudioPlayer) (env : CallbackEnv) (time : Option TimeInfo) : AudioPlayer :=
  match time with
  | none => s
  | some t =>
    let dac_time_us := t.outputBufferDacTime_us
    let loop_time_us := env.loop_time_us
    let s1 := { s with
      dac_loop_calibrations := pushCalib s.dac_loop_calibrations (dac_time_us, loop_time_us)
      last_dac_calibration_time_us := loop_time_us }
    let loop_at_dac_us := s1.estimate_loop_time_for_dac_time dac_time_us
    let loop_at_dac_us := if loop_at_dac_us = 0 then loop_time_us else loop_at_dac_us
    let s1 := { s1 with
      last_known_playback_position_us := env.compute_server_time loop_at_dac_us }
    match s1.scheduled_start_dac_time_us, s1.scheduled_start_loop_time_us with
    | none, some loop_start =>
      if loop_start ≠ 0 then
        let est_dac := s1.estimate_dac_time_for_server_timestamp env.compute_client_time
          (env.compute_server_time loop_start)
        if est_dac ≠ 0 then { s1 with scheduled_start_dac_time_us := some est_dac } else s1
      else s1
    | _, _ => s1

/-- `AudioPlayer._handle_start_gating` (lines 884-945): DAC gating when a
DAC target and positive DAC time are available, otherwise loop-time
gating; fills pre-start silence, fast-forwards when late under DAC
gating, and arms `PLAYING` once the target time has been reached.
Returns the new state and `bytes_written` (silence bytes only). -/
def AudioPlayer.handle_start_gating
    (s : AudioPlayer) (bytes_written frames : ℕ) (time : Option TimeInfo)
    (loop_now_us : ℤ) : AudioPlayer × ℕ :=
  match s.format with
  | none => (s, bytes_written)
  | some f =>
    let dac_now_opt : Option ℤ :=
      match time, s.scheduled_start_dac_time_us with
      | some t, some _ =>
        if 0 < t.outputBufferDacTime_us then some t.outputBufferDacTime_us else none
      | _, _ => none
    let gate : Option (ℤ × ℤ × ℤ × Bool) :=
      match dac_now_opt, s.scheduled_start_dac_time_us with
      | some dac_now, some sched_dac =>
        some (sched_dac - dac_now, sched_dac, dac_now, true)
      | _, _ =>
        match s.scheduled_start_loop_time_us with
        | some sched_loop => some (sched_loop - loop_now_us, sched_loop, loop_now_us, false)
        | none => none
    match gate with
    | none => (s, bytes_written)
    | some (delta_us, target_time_us, current_time_us, can_drop_frames) =>
      let (s1, bytes_written) :=
        if 0 < delta_us then
          let frames_until_start := ((delta_us * f.sample_rate + 999999) / 1000000).toNat
          let frames_to_silence := min frames_until_start frames
          (s, bytes_written + frames_to_silence * f.frame_size)
        else if delta_us < 0 ∧ can_drop_frames then
          if ¬(s.early_start_suspect ∧ ¬s.has_reanchored) then
            let frames_to_drop := (((-delta_us) * f.sample_rate + 999999) / 1000000).toNat
            let s1 := s.skip_input_frames frames_to_drop
              (frames_to_drop + 2 * s.queue.length + 4)
            ({ s1 with playback_state := .PLAYING }, bytes_written)
          else (s, bytes_written)
        else (s, bytes_written)
      if target_time_us ≤ current_time_us then
        ({ s1 with playback_state := .PLAYING }, bytes_written)
      else (s1, bytes_written)

/-- Slow correction path of `AudioPlayer._audio_callback` (lines 446-501):
process runs of normal frames between insert/drop events.  Arguments
`ic`/`dc` are `insert_counter`/`drop_counter`; returns the final state,
both counters, and the output bytes of this path. -/
def slowGo (f : PCMFormat) (insert_every_n drop_every_n : ℕ) :
    ℕ → AudioPlayer → ℤ → ℤ → ℕ → List ℕ → AudioPlayer × ℤ × ℤ × List ℕ
  | 0, s, ic, dc, _, acc => (s, ic, dc, acc)
  | fuel + 1, s, ic, dc, frames_remaining, acc =>
    if frames_remaining = 0 then (s, ic, dc, acc)
    else
      let frames_until_insert : ℤ :=
        if 0 < insert_every_n then ic else (frames_remaining : ℤ) + 1
      let frames_until_drop : ℤ :=
        if 0 < drop_every_n then dc else (frames_remaining : ℤ) + 1
      let next_event_in : ℤ := min (min frames_until_insert frames_until_drop)
        (frames_remaining : ℤ)
      let (s, ic, dc, frames_remaining, acc) :=
        if 0 < next_event_in then
          let seg := next_event_in.toNat
          let (s1, seg_data) := s.read_input_frames_bulk seg (seg + 2 * s.queue.length + 4)
          (s1, ic - seg, dc - seg, frames_remaining - seg, acc ++ seg_data)
        else (s, ic, dc, frames_remaining, acc)
      if frames_remaining = 0 then (s, ic, dc, acc)
      else
        if dc ≤ 0 ∧ 0 < drop_every_n then
          let (s1, _) := s.read_one_input_frame
          let (s2, _) := s1.read_one_input_frame
          slowGo f insert_every_n drop_every_n fuel s2 (ic - 1) (drop_every_n : ℤ)
            (frames_remaining - 1) (acc ++ s2.last_output_frame)
        else if ic ≤ 0 ∧ 0 < insert_every_n then
          slowGo f insert_every_n drop_every_n fuel s ((insert_every_n : ℤ)) (dc - 1)
            (frames_remaining - 1) (acc ++ s.last_output_frame)
        else (s, ic, dc, acc)

/-- `AudioPlayer._audio_callback` (lines 367-521), up to but excluding
the final `_apply_volume` call, which is modelled separately on the
16-bit sample view (`apply_volume` below); under the underflow status
the source returns before reaching `_apply_volume` anyway.  Returns the
new state and the bytes written to the output buffer. -/
def AudioPlayer.audio_callback
    (s : AudioPlayer) (env : CallbackEnv) (frames : ℕ) (time : Option TimeInfo)
    (status : CallbackStatus) : AudioPlayer × List ℕ :=
  match s.format with
  | none => (s, [])
  | some f =>
    let bytes_needed := frames * f.frame_size
    if status.input_underflow ∨ status.output_underflow then
      ({ s with clear_requested := true }, List.replicate bytes_needed 0)
    else
      let s := s.update_playback_position_from_dac env time
      if s.playback_state = .WAITING_FOR_START then
        let (s1, bytes_written) := s.handle_start_gating 0 frames time env.loop_time_us
        if s1.playback_state = .WAITING_FOR_START then
          (s1, List.replicate bytes_written 0 ++
            List.replicate (bytes_needed - bytes_written) 0)
        else
          callbackRead s1 f frames bytes_written
      else
        callbackRead s f frames 0
where
  /-- Reading part of the callback (fast bulk path or slow correction
  path), entered with `bytes_written` silence bytes already emitted. -/
  callbackRead (s : AudioPlayer) (f : PCMFormat) (frames bytes_written : ℕ) :
      AudioPlayer × List ℕ :=
    let insert_every_n := s.insert_every_n_frames
    let drop_every_n := s.drop_every_n_frames
    if insert_every_n = 0 ∧ drop_every_n = 0 then
      let (s1, frames_data) := s.read_input_frames_bulk frames
        (frames + 2 * s.queue.length + 4)
      (s1, List.replicate bytes_written 0 ++ frames_data)
    else
      let s := if s.frames_until_next_insert ≤ 0 ∧ 0 < insert_every_n then
          { s with frames_until_next_insert := insert_every_n } else s
      let s := if s.frames_until_next_drop ≤ 0 ∧ 0 < drop_every_n then
          { s with frames_until_next_drop := drop_every_n } else s
      let s := if s.last_output_frame = [] then
          { s with last_output_frame := List.replicate f.frame_size 0 } else s
      let (s1, ic, dc, data) := slowGo f insert_every_n drop_every_n (frames + 1) s
        s.frames_until_next_insert s.frames_until_next_drop frames []
      ({ s1 with frames_until_next_insert := ic, frames_until_next_drop := dc },
        List.replicate bytes_written 0 ++ data)

/-- Guard of the re-anchor branch of
`AudioPlayer._update_correction_schedule` (lines 972-978), as a separate
decidable predicate over the state, the injected filtered error and the
loop time. -/
def AudioPlayer.reanchor_branch_fires (s : AudioPlayer) (e : ℚ) (now_loop_us : ℤ) : Bool :=
  match s.format with
  | none => false
  | some f =>
    decide (0 < f.sample_rate) && decide (500000 < |e|) &&
      decide (s.playback_state = .PLAYING) &&
      decide (5000000 < now_loop_us - s.last_reanchor_loop_time_us)

/-- `AudioPlayer._update_correction_schedule` (lines 947-1014).  The
`_smooth_sync_error` call updates the external `SendspinTimeFilter` and
caches its offset; that cached filtered value is injected here as
`filtered_error_us` (the raw measurement only enters through the
filter).  Float arithmetic of the cadence computation is embedded in
`ℚ`; Python `int()` of the positive quotient is `Int.floor ∘ toNat`. -/
def AudioPlayer.update_correction_schedule
    (s : AudioPlayer) (filtered_error_us : ℚ) (now_loop_us : ℤ) : AudioPlayer :=
  match s.format with
  | none => s
  | some f =>
    if f.sample_rate = 0 then s
    else
      let s := { s with sync_error_filtered_us := filtered_error_us }
      let abs_err := |s.sync_error_filtered_us|
      if abs_err ≤ 2000 then
        { s with insert_every_n_frames := 0, drop_every_n_frames := 0 }
      else if 500000 < abs_err ∧ s.playback_state = .PLAYING ∧
          5000000 < now_loop_us - s.last_reanchor_loop_time_us then
        AudioPlayer.clear
          { s with
            insert_every_n_frames := 0
            drop_every_n_frames := 0
            frames_until_next_insert := 0
            frames_until_next_drop := 0
            last_reanchor_loop_time_us := now_loop_us }
      else
        let frames_error : ℚ := abs_err * f.sample_rate / 1000000
        let desired_corrections_per_sec := frames_error / 2
        let max_corrections_per_sec : ℚ := (f.sample_rate : ℚ) * (4 / 100)
        let corrections_per_sec := min desired_corrections_per_sec max_corrections_per_sec
        let interval_frames : ℕ :=
          if 0 < corrections_per_sec then
            max (Int.floor ((f.sample_rate : ℚ) / corrections_per_sec)).toNat 1
          else (Int.floor ((1 : ℚ) / max (4 / 100 : ℚ) (1 / 1000))).toNat
        if (0 : ℚ) < s.sync_error_filtered_us then
          { s with drop_every_n_frames := interval_frames, insert_every_n_frames := 0 }
        else
          { s with insert_every_n_frames := interval_frames, drop_every_n_frames := 0 }

/-- Per-submission environment: the value of `loop.time()·1e6` during
this `submit` call, the clock-mapper callable, and the output of the
external sync-error filter for this submission. -/
structure SubmitEnv where
  now_us : ℤ
  compute_client_time : ℤ → ℤ
  filtered_error_us : ℚ

/-- Scheduling section of `AudioPlayer.submit` (lines 1047-1080): set the
scheduled start on the first chunk (flagging a suspect early start), and
while waiting refresh it from the stored first timestamp when it moved by
more than 5 ms. -/
def AudioPlayer.submitScheduling
    (s : AudioPlayer) (env : SubmitEnv) (server_timestamp_us : ℤ) : AudioPlayer :=
  match s.scheduled_start_loop_time_us with
  | none =>
    let loop_start := env.compute_client_time server_timestamp_us
    let s1 := { s with scheduled_start_loop_time_us := some loop_start }
    let est_dac := s1.estimate_dac_time_for_server_timestamp env.compute_client_time
      server_timestamp_us
    let s1 := { s1 with
      scheduled_start_dac_time_us := if est_dac ≠ 0 then some est_dac else none
      playback_state := .WAITING_FOR_START
      first_server_timestamp_us := some server_timestamp_us }
    if loop_start - env.now_us ≤ 700000 then { s1 with early_start_suspect := true } else s1
  | some sched =>
    match s.playback_state, s.first_server_timestamp_us with
    | .WAITING_FOR_START, some first_ts =>
      let updated_loop_start := env.compute_client_time first_ts
      if 5000 < |updated_loop_start - sched| then
        let s1 := { s with scheduled_start_loop_time_us := some updated_loop_start }
        let est_dac := s1.estimate_dac_time_for_server_timestamp env.compute_client_time
          first_ts
        { s1 with scheduled_start_dac_time_us := if est_dac ≠ 0 then some est_dac else none }
      else s
    | _, _ => s

/-- Final enqueue section of `AudioPlayer.submit` (lines 1140-1154):
queue the (possibly trimmed) payload, add its duration and advance the
expected-next timestamp. -/
def AudioPlayer.submitEnqueue
    (s : AudioPlayer) (f : PCMFormat) (server_timestamp_us : ℤ) (payload : List ℕ) :
    AudioPlayer :=
  if payload.length = 0 then s
  else
    let chunk_frames := payload.length / f.frame_size
    let chunk_duration_us : ℤ := ((chunk_frames * 1000000) / f.sample_rate : ℕ)
    { s with
      queue := s.queue ++ [⟨server_timestamp_us, payload⟩]
      queued_duration_us := s.queued_duration_us + chunk_duration_us
      expected_next_timestamp := some (server_timestamp_us + chunk_duration_us) }

/-- Gap/overlap normalization section of `AudioPlayer.submit`
(lines 1096-1154): synthesize silence over gaps, trim or drop overlaps,
then enqueue. -/
def AudioPlayer.submitNormalize
    (s : AudioPlayer) (f : PCMFormat) (server_timestamp_us : ℤ) (payload : List ℕ) :
    AudioPlayer :=
  match s.expected_next_timestamp with
  | none =>
    AudioPlayer.submitEnqueue { s with expected_next_timestamp := some server_timestamp_us }
      f server_timestamp_us payload
  | some expected =>
    if expected < server_timestamp_us then
      let gap_us := server_timestamp_us - expected
      let gap_frames := ((gap_us * f.sample_rate) / 1000000).toNat
      let silence := List.replicate (gap_frames * f.frame_size) 0
      let silence_duration_us : ℤ := ((gap_frames * 1000000) / f.sample_rate : ℕ)
      let s1 := { s with
        queue := s.queue ++ [⟨expected, silence⟩]
        queued_duration_us := s.queued_duration_us + silence_duration_us
        expected_next_timestamp := some server_timestamp_us }
      AudioPlayer.submitEnqueue s1 f server_timestamp_us payload
    else if server_timestamp_us < expected then
      let overlap_us := expected - server_timestamp_us
      let overlap_frames := ((overlap_us * f.sample_rate) / 1000000).toNat
      let trim_bytes := overlap_frames * f.frame_size
      if trim_bytes < payload.length then
        AudioPlayer.submitEnqueue s f expected (payload.drop trim_bytes)
      else s
    else AudioPlayer.submitEnqueue s f server_timestamp_us payload

/-- `AudioPlayer.submit` (lines 1016-1164): deferred clear, size
validation, start scheduling, sync correction, then gap/overlap
normalization and enqueue.  The stream-start lines (1156-1164) touch
only the unmodelled sounddevice stream handle. -/
def AudioPlayer.submit
    (s : AudioPlayer) (env : SubmitEnv) (server_timestamp_us : ℤ) (payload : List ℕ) :
    AudioPlayer :=
  let s := if s.clear_requested then AudioPlayer.clear { s with clear_requested := false }
    else s
  match s.format with
  | none => s
  | some f =>
    if f.frame_size = 0 then s
    else if payload.length % f.frame_size ≠ 0 then s
    else
      let s := s.submitScheduling env server_timestamp_us
      let s :=
        if s.playback_state = .PLAYING ∧ 0 < s.last_known_playback_position_us ∧
            0 < s.server_ts_cursor_us then
          s.update_correction_schedule env.filtered_error_us env.now_us
        else s
      s.submitNormalize f server_timestamp_us payload

/-! ## Volume scaling (`AudioPlayer._apply_volume`, lines 849-872)

The source reinterprets the byte buffer as `int16` samples; the embedding
works on that sample view directly (`List ℤ`, each sample in
`[-32768, 32767]`).  The numpy expression `(samples * amplitude)
.astype(np.int16)` with `amplitude = (volume / 100) ** 1.5` multiplies in
double precision and casts toward zero; its exact real-arithmetic value
`trunc (s · (volume/100)^1.5)` is embedded through an integer square
root: for `m ≥ 0`, `⌊m · (v/100)^{3/2}⌋ = Nat.sqrt (m² · v³ / 10⁶)`
(proved below), and truncation toward zero is `sign`-symmetric. -/

/-- `⌊m · (volume/100)^1.5⌋` for a non-negative magnitude `m`. -/
def scaledMagnitude (m volume : ℕ) : ℕ := Nat.sqrt (m ^ 2 * volume ^ 3 / 1000000)

/-- One 16-bit sample scaled by `(volume/100)^1.5`, truncated toward
zero as the numpy `int16` cast does. -/
def scaleSample (volume : ℕ) (s : ℤ) : ℤ :=
  if 0 ≤ s then (scaledMagnitude s.toNat volume : ℤ)
  else -(scaledMagnitude (-s).toNat volume : ℤ)

/-- `AudioPlayer._apply_volume` on the int16 sample view of the output
buffer: zero everything when muted or at level 0, pass through at level
100, otherwise scale each sample. -/
def apply_volume (muted : Bool) (volume : ℕ) (samples : List ℤ) : List ℤ :=
  if muted = true ∨ volume = 0 then samples.map fun _ => 0
  else if volume = 100 then samples
  else samples.map (scaleSample volume)

/-! ## Shared structural lemmas -/

theorem submitScheduling_queue (s : AudioPlayer) (env : SubmitEnv) (ts : ℤ) :
    (s.submitScheduling env ts).queue = s.queue := by
  unfold AudioPlayer.submitScheduling
  split
  · simp [apply_ite AudioPlayer.queue]
  · split
    · simp [apply_ite AudioPlayer.queue]
    · rfl

theorem submitScheduling_expected (s : AudioPlayer) (env : SubmitEnv) (ts : ℤ) :
    (s.submitScheduling env ts).expected_next_timestamp = s.expected_next_timestamp := by
  unfold AudioPlayer.submitScheduling
  split
  · simp [apply_ite AudioPlayer.expected_next_timestamp]
  · split
    · simp [apply_ite AudioPlayer.expected_next_timestamp]
    · rfl

theorem submitScheduling_cursor (s : AudioPlayer) (env : SubmitEnv) (ts : ℤ) :
    (s.submitScheduling env ts).server_ts_cursor_us = s.server_ts_cursor_us := by
  unfold AudioPlayer.submitScheduling
  split
  · simp [apply_ite AudioPlayer.server_ts_cursor_us]
  · split
    · simp [apply_ite AudioPlayer.server_ts_cursor_us]
    · rfl

theorem submitScheduling_duration (s : AudioPlayer) (env : SubmitEnv) (ts : ℤ) :
    (s.submitScheduling env ts).queued_duration_us = s.queued_duration_us := by
  unfold AudioPlayer.submitScheduling
  split
  · simp [apply_ite AudioPlayer.queued_duration_us]
  · split
    · simp [apply_ite AudioPlayer.queued_duration_us]
    · rfl

theorem submitScheduling_format (s : AudioPlayer) (env : SubmitEnv) (ts : ℤ) :
    (s.submitScheduling env ts).format = s.format := by
  unfold AudioPlayer.submitScheduling
  split
  · simp [apply_ite AudioPlayer.format]
  · split
    · simp [apply_ite AudioPlayer.format]
    · rfl

theorem submitScheduling_state (s : AudioPlayer) (env : SubmitEnv) (ts : ℤ) :
    (s.submitScheduling env ts).playback_state = s.playback_state ∨
      (s.submitScheduling env ts).playback_state = .WAITING_FOR_START := by
  unfold AudioPlayer.submitScheduling
  split
  · right
    simp [apply_ite AudioPlayer.playback_state]
  · split
    · left
      simp [apply_ite AudioPlayer.playback_state]
    · left
      rfl

theorem update_correction_queue_cases (s : AudioPlayer) (e : ℚ) (now : ℤ) :
    (s.update_correction_schedule e now).queue = s.queue ∨
      (s.update_correction_schedule e now).queue = [] := by
  rcases hf : s.format with _ | f
  · left
    simp [AudioPlayer.update_correction_schedule, hf]
  · simp only [AudioPlayer.update_correction_schedule, hf]
    split_ifs <;> simp [AudioPlayer.clear]

theorem update_correction_cursor_cases (s : AudioPlayer) (e : ℚ) (now : ℤ) :
    (s.update_correction_schedule e now).server_ts_cursor_us = s.server_ts_cursor_us ∨
      (s.update_correction_schedule e now).server_ts_cursor_us = 0 := by
  rcases hf : s.format with _ | f
  · left
    simp [AudioPlayer.update_correction_schedule, hf]
  · simp only [AudioPlayer.update_correction_schedule, hf]
    split_ifs <;> simp [AudioPlayer.clear]

/-! ## C10: `clear` restores the freshly-initialized playback state -/

/-- C10: `clear()` always restores the player to the freshly-initialized
playback state — state `Initializing`, queue empty, current chunk and
offset cleared, server cursor and remainder zero, both correction
cadences and countdowns zero, sync filter reset, clear-requested flag
lowered, DAC calibration ring emptied — and in particular it also resets
the last-re-anchor loop-time stamp to zero, so the 5-second re-anchor
cooldown does not persist across any clear. -/
theorem clear_resets_player (s : AudioPlayer) :
    (s.clear).playback_state = .INITIALIZING ∧
    (s.clear).queue = [] ∧
    (s.clear).current_chunk = none ∧
    (s.clear).current_chunk_offset = 0 ∧
    (s.clear).server_ts_cursor_us = 0 ∧
    (s.clear).server_ts_cursor_remainder = 0 ∧
    (s.clear).insert_every_n_frames = 0 ∧
    (s.clear).drop_every_n_frames = 0 ∧
    (s.clear).frames_until_next_insert = 0 ∧
    (s.clear).frames_until_next_drop = 0 ∧
    (s.clear).sync_error_filtered_us = 0 ∧
    (s.clear).clear_requested = false ∧
    (s.clear).dac_loop_calibrations = [] ∧
    (s.clear).last_reanchor_loop_time_us = 0 ∧
    (s.clear).expected_next_timestamp = none ∧
    (s.clear).scheduled_start_loop_time_us = none ∧
    (s.clear).scheduled_start_dac_time_us = none ∧
    (s.clear).queued_duration_us = 0 ∧
    (s.clear).last_known_playback_position_us = 0 ∧
    (s.clear).last_dac_calibration_time_us = 0 ∧
    (s.clear).first_server_timestamp_us = none ∧
    (s.clear).early_start_suspect = false ∧
    (s.clear).has_reanchored = false ∧
    (s.clear).last_output_frame = [] :=
  ⟨rfl, rfl, rfl, rfl, rfl, rfl, rfl, rfl, rfl, rfl, rfl, rfl, rfl, rfl, rfl, rfl,
    rfl, rfl, rfl, rfl, rfl, rfl, rfl, rfl⟩

/-! ## C2: the re-anchor cooldown is defeated by `clear()`

The re-anchor branch of `_update_correction_schedule` stores
`_last_reanchor_loop_time_us = now` and then calls `self.clear()`, which
resets the very same stamp to zero (line 360).  Consequently, once the
player is back in `PLAYING`, a second re-anchor is admitted immediately
(whenever the loop clock itself exceeds 5 s), and the documented
"minimum time between re-anchor events (5 seconds)" does not hold.  The
trace below drives the model from a fresh player through two re-anchors
900 ms apart using only `submit` and `_audio_callback` steps. -/

/-- 50 kHz, one byte per frame: each frame lasts exactly 20 µs. -/
def fmt50k : PCMFormat := ⟨50000, 1⟩

/-- C2 trace, step 1: first chunk scheduled 1 s ahead. -/
def c2P1 : AudioPlayer :=
  (initPlayer (some fmt50k)).submit ⟨0, fun t => t, 0⟩ 1000000 (List.replicate 4 9)

/-- C2 trace, step 2: a callback past the scheduled start arms playback
and consumes the queue (identity clock mapping). -/
def c2P2 : AudioPlayer :=
  (c2P1.audio_callback ⟨1000100, fun t => t, fun t => t⟩ 2 (some ⟨1000100⟩)
    ⟨false, false⟩).1

/-- C2 trace, step 3: a 600 ms filtered error at loop time 6 s fires the
first re-anchor inside `submit`. -/
def c2P3 : AudioPlayer :=
  c2P2.submit ⟨6000000, fun t => t, 600000⟩ 6000000 (List.replicate 4 9)

/-- C2 trace, step 4: the following chunk re-enters `WAITING_FOR_START`
(clock mapping now `t + 800000`, keeping the early-start safeguard off). -/
def c2P4 : AudioPlayer :=
  c2P3.submit ⟨6100000, fun t => t + 800000, 0⟩ 6000080 (List.replicate 4 9)

/-- C2 trace, step 5: a callback past the refreshed start re-arms
playback with positive position and cursor. -/
def c2P5 : AudioPlayer :=
  (c2P4.audio_callback ⟨6800100, fun t => t + 800000, fun t => t - 800000⟩ 2
    (some ⟨6800100⟩) ⟨false, false⟩).1

/-- C2 trace, step 6: 900 ms after the first re-anchor a second 600 ms
error re-anchors again. -/
def c2P6 : AudioPlayer :=
  c2P5.submit ⟨6900000, fun t => t + 800000, 600000⟩ 6000160 (List.replicate 4 9)

/-- C2 (code bug): the re-anchor branch fires at loop time 6,000,000 µs;
the re-anchor's own `clear()` zeroes `_last_reanchor_loop_time_us`
(third conjunct), the player is back in `PLAYING` by loop time
6,800,100 µs, and the branch fires again at 6,900,000 µs — 900,000 µs
after the previous re-anchor, far below the documented 5,000,000 µs
cooldown — and the second `submit` indeed re-anchors (last conjunct). -/
theorem reanchor_cooldown_code_bug :
    c2P2.reanchor_branch_fires 600000 6000000 = true ∧
    c2P3.playback_state = .INITIALIZING ∧
    c2P3.last_reanchor_loop_time_us = 0 ∧
    c2P5.playback_state = .PLAYING ∧
    c2P5.reanchor_branch_fires 600000 6900000 = true ∧
    c2P6.playback_state = .INITIALIZING ∧
    c2P6.last_reanchor_loop_time_us = 0 ∧
    (6900000 : ℤ) - 6000000 < 5000000 := by
  refine ⟨by decide, by decide, by decide, by decide, by decide, by decide, by decide,
    by decide⟩

/-! ## C8: re-anchor transition -/

/-- A playing state with a queued chunk, used for the C8 re-anchor
transition claims. -/
def c8Start : AudioPlayer :=
  { initPlayer (some fmt50k) with
    playback_state := .PLAYING
    queue := [⟨1000, [1, 2, 3, 4]⟩]
    expected_next_timestamp := some 1080
    queued_duration_us := 80
    server_ts_cursor_us := 1000
    last_known_playback_position_us := 2000 }

/-- C8 counterexample: when the corrector triggers a re-anchor from
`PLAYING` (600 ms filtered error, cooldown elapsed), the player does
**not** enter the `REANCHORING` state — `clear()` puts it directly into
`INITIALIZING` (the `REANCHORING` enum variant is never assigned
anywhere in `audio.py`). -/
theorem reanchor_state_counterexample :
    (c8Start.update_correction_schedule 600000 6000000).playback_state =
      .INITIALIZING ∧
    (c8Start.update_correction_schedule 600000 6000000).playback_state ≠
      .REANCHORING ∧
    (c8Start.update_correction_schedule 600000 6000000).queue = [] := by
  refine ⟨by decide, by decide, by decide⟩

/-- C8 (amended): when the corrector triggers a re-anchor while
`PLAYING` (filtered error above 500 ms, cooldown elapsed), the player
transitions directly to `INITIALIZING` via `clear()` (never through the
unused `REANCHORING` variant), the queue and scheduler state are
cleared, and the next submit call carrying a valid non-empty chunk
re-enters `WAITING_FOR_START` with a freshly computed scheduled start. -/
theorem reanchor_clears_and_rearms
    (s : AudioPlayer) (f : PCMFormat) (e : ℚ) (now : ℤ)
    (hf : s.format = some f) (hr : f.sample_rate ≠ 0)
    (hp : s.playback_state = .PLAYING) (he : 500000 < |e|)
    (hc : 5000000 < now - s.last_reanchor_loop_time_us) :
    (s.update_correction_schedule e now).playback_state = .INITIALIZING ∧
    (s.update_correction_schedule e now).queue = [] ∧
    (s.update_correction_schedule e now).scheduled_start_loop_time_us = none ∧
    (s.update_correction_schedule e now).expected_next_timestamp = none ∧
    (s.update_correction_schedule e now).server_ts_cursor_us = 0 ∧
    (s.update_correction_schedule e now).format = some f ∧
    ∀ (env : SubmitEnv) (ts : ℤ) (payload : List ℕ),
      payload ≠ [] → payload.length % f.frame_size = 0 → f.frame_size ≠ 0 →
      ((s.update_correction_schedule e now).submit env ts payload).playback_state =
        .WAITING_FOR_START ∧
      ((s.update_correction_schedule e now).submit env ts
        payload).scheduled_start_loop_time_us = some (env.compute_client_time ts) ∧
      ((s.update_correction_schedule e now).submit env ts payload).queue =
        [⟨ts, payload⟩] := by
  have habs : ¬ (|e| ≤ 2000) := by
    intro h
    exact absurd (lt_of_lt_of_le (by norm_num) (le_trans (le_of_lt he) h)) (lt_irrefl _)
  have hcl : s.update_correction_schedule e now =
      AudioPlayer.clear
        { s with
          insert_every_n_frames := 0
          drop_every_n_frames := 0
          frames_until_next_insert := 0
          frames_until_next_drop := 0
          last_reanchor_loop_time_us := now
          sync_error_filtered_us := e } := by
    simp only [AudioPlayer.update_correction_schedule, hf]
    rw [if_neg hr]
    rw [if_neg habs]
    rw [if_pos ⟨he, hp, hc⟩]
  rw [hcl]
  refine ⟨rfl, rfl, rfl, rfl, rfl, hf, ?_⟩
  intro env ts payload hne hsz hfs
  simp [AudioPlayer.submit, AudioPlayer.submitScheduling, AudioPlayer.submitNormalize,
    AudioPlayer.submitEnqueue, AudioPlayer.estimate_dac_time_for_server_timestamp,
    AudioPlayer.update_correction_schedule, AudioPlayer.clear, hf, hsz, hfs, hne,
    apply_ite AudioPlayer.playback_state,
    apply_ite AudioPlayer.scheduled_start_loop_time_us,
    apply_ite AudioPlayer.expected_next_timestamp,
    apply_ite AudioPlayer.queued_duration_us,
    apply_ite AudioPlayer.format,
    apply_ite AudioPlayer.server_ts_cursor_us,
    apply_ite AudioPlayer.last_known_playback_position_us,
    apply_ite AudioPlayer.queue]

/-- Witness for the amended C8 theorem at the concrete `c8Start` state. -/
theorem reanchor_clears_and_rearms_witness :
    (c8Start.update_correction_schedule 600000 6000000).queue = [] ∧
    ((c8Start.update_correction_schedule 600000 6000000).submit
      ⟨7000000, fun t => t, 0⟩ 7100000 [7]).playback_state = .WAITING_FOR_START := by
  have h := reanchor_clears_and_rearms c8Start fmt50k 600000 6000000 rfl
    (by decide) rfl (by norm_num) (by decide)
  exact ⟨h.2.1, (h.2.2.2.2.2.2 ⟨7000000, fun t => t, 0⟩ 7100000 [7] (by decide)
    (by decide) (by decide)).1⟩

/-! ## C9: size invariance -/

/-- Deferred-clear helper: when the clear-requested flag is up, `submit`
behaves exactly as `submit` on the cleared player. -/
theorem submit_clear_requested (s : AudioPlayer) (env : SubmitEnv) (ts : ℤ)
    (payload : List ℕ) (hflag : s.clear_requested = true) :
    s.submit env ts payload =
      (AudioPlayer.clear { s with clear_requested := false }).submit env ts payload := by
  conv_lhs => rw [AudioPlayer.submit]
  conv_rhs => rw [AudioPlayer.submit]
  rw [hflag]
  simp only [if_true]
  rfl

/-- Every chunk enqueued by the final enqueue step keeps the frame-size
divisibility invariant. -/
theorem submitEnqueue_sizes (s : AudioPlayer) (f : PCMFormat) (ts : ℤ)
    (payload : List ℕ) (hsz : payload.length % f.frame_size = 0)
    (hinv : ∀ c ∈ s.queue, c.audio_data.length % f.frame_size = 0) :
    ∀ c ∈ (s.submitEnqueue f ts payload).queue,
      c.audio_data.length % f.frame_size = 0 := by
  unfold AudioPlayer.submitEnqueue
  split
  · exact hinv
  · intro c hc
    simp only [List.mem_append, List.mem_singleton] at hc
    rcases hc with hc | hc
    · exact hinv c hc
    · rw [hc]
      exact hsz

/-- Gap/overlap normalization preserves the frame-size divisibility
invariant: synthesized silence is a whole number of frames, and overlap
trimming removes a whole number of frames. -/
theorem submitNormalize_sizes (s : AudioPlayer) (f : PCMFormat) (ts : ℤ)
    (payload : List ℕ) (hsz : payload.length % f.frame_size = 0)
    (hinv : ∀ c ∈ s.queue, c.audio_data.length % f.frame_size = 0) :
    ∀ c ∈ (s.submitNormalize f ts payload).queue,
      c.audio_data.length % f.frame_size = 0 := by
  unfold AudioPlayer.submitNormalize
  split
  · exact submitEnqueue_sizes _ f ts payload hsz hinv
  · split
    · refine submitEnqueue_sizes _ f ts payload hsz ?_
      intro c hc
      simp only [List.mem_append, List.mem_singleton] at hc
      rcases hc with hc | hc
      · exact hinv c hc
      · rw [hc]
        simp [Nat.mul_mod_left]
    · split
      · dsimp only
        split
        · refine submitEnqueue_sizes _ f _ _ ?_ hinv
          rw [List.length_drop]
          exact Nat.sub_mod_eq_zero_of_mod_eq (hsz.trans (Nat.mul_mod_left _ _).symm)
        · exact hinv
      · exact submitEnqueue_sizes _ f ts payload hsz hinv

/-- `submit` preserves the frame-size divisibility invariant when the
deferred clear flag is down. -/
theorem submit_post_flag_sizes (s : AudioPlayer) (f : PCMFormat) (env : SubmitEnv)
    (ts : ℤ) (payload : List ℕ) (hf : s.format = some f)
    (hflag : s.clear_requested = false)
    (hinv : ∀ c ∈ s.queue, c.audio_data.length % f.frame_size = 0) :
    ∀ c ∈ (s.submit env ts payload).queue,
      c.audio_data.length % f.frame_size = 0 := by
  rw [AudioPlayer.submit, hflag]
  simp only [if_false, Bool.false_eq_true, hf]
  split
  · exact hinv
  · split
    · exact hinv
    · set s1 := s.submitScheduling env ts with hs1
      have hinv1 : ∀ c ∈ s1.queue, c.audio_data.length % f.frame_size = 0 := by
        rw [hs1, submitScheduling_queue]
        exact hinv
      set s2 := if s1.playback_state = PlaybackState.PLAYING ∧
          0 < s1.last_known_playback_position_us ∧ 0 < s1.server_ts_cursor_us then
          s1.update_correction_schedule env.filtered_error_us env.now_us else s1 with hs2
      have hinv2 : ∀ c ∈ s2.queue, c.audio_data.length % f.frame_size = 0 := by
        rw [hs2]
        split
        · rcases update_correction_queue_cases s1 env.filtered_error_us env.now_us with
            h | h
          · rw [h]
            exact hinv1
          · rw [h]
            simp
        · exact hinv1
      refine submitNormalize_sizes s2 f ts payload ?_ hinv2
      simpa using ‹¬ payload.length % f.frame_size ≠ 0›

/-- C9 (amended): every chunk accepted into the queue by any `submit`
call — synthesized silence and overlap-trimmed chunks included — has a
payload length that is a multiple of the frame size; and a payload whose
length is not a multiple of the frame size is dropped with the whole
player state unchanged, **provided** no deferred clear request is
pending (a pending clear drains the queue first, before the size
check). -/
theorem submit_size_invariant (s : AudioPlayer) (f : PCMFormat) (env : SubmitEnv)
    (ts : ℤ) (payload : List ℕ) (hf : s.format = some f)
    (hinv : ∀ c ∈ s.queue, c.audio_data.length % f.frame_size = 0) :
    (∀ c ∈ (s.submit env ts payload).queue,
      c.audio_data.length % f.frame_size = 0) ∧
    (s.clear_requested = false → payload.length % f.frame_size ≠ 0 →
      s.submit env ts payload = s) := by
  constructor
  · rcases hflag : s.clear_requested with _ | _
    · exact submit_post_flag_sizes s f env ts payload hf hflag hinv
    · rw [submit_clear_requested s env ts payload hflag]
      refine submit_post_flag_sizes _ f env ts payload ?_ rfl ?_
      · simpa [AudioPlayer.clear] using hf
      · simp [AudioPlayer.clear]
  · intro hflag hbad
    rw [AudioPlayer.submit, hflag]
    simp only [Bool.false_eq_true, if_false, hf]
    by_cases h0 : f.frame_size = 0
    · rw [if_pos h0]
    · rw [if_neg h0, if_pos hbad]

/-- C9 counterexample (to the claim as stated): with the deferred clear
flag raised by an underflow, a submit whose payload size is invalid
(3 bytes, frame size 2) still drains the queue and resets the
expected-next timestamp — they are not "left unchanged". -/
def c9Start : AudioPlayer :=
  { initPlayer (some ⟨50000, 2⟩) with
    clear_requested := true
    queue := [⟨0, [1, 1]⟩]
    expected_next_timestamp := some 40
    queued_duration_us := 40 }

theorem submit_size_invariant_counterexample :
    (3 : ℕ) % 2 ≠ 0 ∧
    (c9Start.submit ⟨0, fun t => t, 0⟩ 100 [1, 1, 1]).queue = [] ∧
    c9Start.queue = [⟨0, [1, 1]⟩] ∧
    (c9Start.submit ⟨0, fun t => t, 0⟩ 100 [1, 1, 1]).expected_next_timestamp = none ∧
    c9Start.expected_next_timestamp = some 40 ∧
    (c9Start.submit ⟨0, fun t => t, 0⟩ 100 [1, 1, 1]).queued_duration_us = 0 ∧
    c9Start.queued_duration_us = 40 := by
  refine ⟨by decide, by decide, by decide, by decide, by decide, by decide, by decide⟩

/-- Witness for the amended C9 theorem: a valid 4-byte chunk is accepted
(sizes all divisible), and an invalid 3-byte chunk leaves the player
untouched. -/
theorem submit_size_invariant_witness :
    (∀ c ∈ ((initPlayer (some ⟨50000, 2⟩)).submit ⟨0, fun t => t, 0⟩ 0
      [5, 5, 5, 5]).queue, c.audio_data.length % 2 = 0) ∧
    (initPlayer (some ⟨50000, 2⟩)).submit ⟨0, fun t => t, 0⟩ 0 [1, 1, 1] =
      initPlayer (some ⟨50000, 2⟩) := by
  constructor
  · exact (submit_size_invariant (initPlayer (some ⟨50000, 2⟩)) ⟨50000, 2⟩
      ⟨0, fun t => t, 0⟩ 0 [5, 5, 5, 5] rfl (by simp [initPlayer])).1
  · exact (submit_size_invariant (initPlayer (some ⟨50000, 2⟩)) ⟨50000, 2⟩
      ⟨0, fun t => t, 0⟩ 0 [1, 1, 1] rfl (by simp [initPlayer])).2 rfl (by decide)

/-! ## C6: underflow raises the deferred clear flag -/

/-- C6: a callback whose status flags input or output underflow sets the
cross-thread clear-requested flag, fills the entire output buffer with
silence, and changes nothing else (no input frames read, no cursor
advance); and the next `submit` call with the flag up behaves exactly as
`submit` on the cleared player — the queue is drained and the playback
state reset before the new chunk is processed or enqueued. -/
theorem underflow_clear_request
    (s : AudioPlayer) (f : PCMFormat) (cenv : CallbackEnv) (env : SubmitEnv)
    (frames : ℕ) (time : Option TimeInfo) (st : CallbackStatus)
    (ts : ℤ) (payload : List ℕ)
    (hf : s.format = some f)
    (hu : st.input_underflow = true ∨ st.output_underflow = true) :
    s.audio_callback cenv frames time st =
      ({ s with clear_requested := true }, List.replicate (frames * f.frame_size) 0) ∧
    (s.clear_requested = true →
      s.submit env ts payload =
        (AudioPlayer.clear { s with clear_requested := false }).submit env ts payload ∧
      (AudioPlayer.clear { s with clear_requested := false }).queue = [] ∧
      (AudioPlayer.clear { s with clear_requested := false }).playback_state =
        .INITIALIZING) := by
  constructor
  · simp only [AudioPlayer.audio_callback, hf]
    rw [if_pos hu]
  · intro hflag
    exact ⟨submit_clear_requested s env ts payload hflag, rfl, rfl⟩

/-- A playing state with a raised clear flag and queued audio, for the
C6 witness. -/
def c6Start : AudioPlayer :=
  { initPlayer (some ⟨50000, 2⟩) with
    playback_state := .PLAYING
    clear_requested := true
    queue := [⟨500, [1, 2, 3, 4]⟩]
    expected_next_timestamp := some 540
    server_ts_cursor_us := 500 }

/-- Witness for C6 at a concrete underflow callback and deferred-clear
submit. -/
theorem underflow_clear_request_witness :
    c6Start.audio_callback ⟨0, fun t => t, fun t => t⟩ 3 none ⟨true, false⟩ =
      ({ c6Start with clear_requested := true }, List.replicate (3 * 2) 0) ∧
    c6Start.submit ⟨0, fun t => t, 0⟩ 600 [7, 7] =
      (AudioPlayer.clear { c6Start with clear_requested := false }).submit
        ⟨0, fun t => t, 0⟩ 600 [7, 7] := by
  have h := underflow_clear_request c6Start ⟨50000, 2⟩ ⟨0, fun t => t, fun t => t⟩
    ⟨0, fun t => t, 0⟩ 3 none ⟨true, false⟩ 600 [7, 7] rfl (Or.inl rfl)
  exact ⟨h.1, (h.2 rfl).1⟩

/-! ## C3: gap/overlap normalization -/

/-- When no deferred clear is pending, the payload is valid and the
player is not `PLAYING` (so the corrector is not consulted), `submit`
is exactly scheduling followed by gap/overlap normalization. -/
theorem submit_no_correction (s : AudioPlayer) (f : PCMFormat) (env : SubmitEnv)
    (ts : ℤ) (payload : List ℕ)
    (hf : s.format = some f) (hflag : s.clear_requested = false)
    (hnp : s.playback_state ≠ .PLAYING) (hfs : f.frame_size ≠ 0)
    (hsz : payload.length % f.frame_size = 0) :
    s.submit env ts payload =
      (s.submitScheduling env ts).submitNormalize f ts payload := by
  rw [AudioPlayer.submit, hflag]
  simp only [Bool.false_eq_true, if_false, hf]
  rw [if_neg hfs, if_neg (by simpa using hsz)]
  rw [if_neg]
  intro hcon
  rcases submitScheduling_state s env ts with h | h
  · exact hnp (h.symm.trans hcon.1)
  · exact absurd (h.symm.trans hcon.1) (by decide)

/-- First P9 submission: 1000 one-byte frames at timestamp 0 (50 kHz,
frame size 1, so one frame lasts 20 µs and the queue tail ends at
20,000 µs). -/
def p9A : AudioPlayer :=
  (initPlayer (some fmt50k)).submit ⟨0, fun t => t + 10000000, 0⟩ 0
    (List.replicate 1000 1)

/-- P9 gap scenario: a 500-frame chunk submitted at frame 1500
(timestamp 30,000 µs), 500 frames past the expected 20,000 µs. -/
def p9GapQueue : AudioPlayer :=
  p9A.submit ⟨0, fun t => t + 10000000, 0⟩ 30000 (List.replicate 500 1)

/-- P9 overlap scenario: a 1000-frame chunk submitted at frame 800
(timestamp 16,000 µs), 200 frames before the expected 20,000 µs. -/
def p9OverlapQueue : AudioPlayer :=
  p9A.submit ⟨0, fun t => t + 10000000, 0⟩ 16000 (List.replicate 1000 1)

set_option maxRecDepth 100000 in
/-- C3: `submit` performs gap/overlap normalization exactly.  (gap) When
the submitted timestamp exceeds the expected-next timestamp, a silence
chunk of exactly `⌊gap_us · rate / 1e6⌋` frames is enqueued at the
expected-next timestamp, before the new chunk.  (overlap, partial) When
it is smaller, the leading `⌊overlap_us · rate / 1e6⌋` frames are
trimmed from the payload, the chunk being enqueued at the expected-next
timestamp.  (overlap, total) When the trim covers the whole payload, the
chunk is dropped and queue, expected-next timestamp and buffered
duration are unchanged.  Consequently (P9, 50 kHz, frame size 1): a
1000-frame chunk at T=0 followed by a 500-frame chunk at frame 1500
yields a queue of exactly 2000 frames (1000 + 500 silence + 500), and a
1000-frame chunk at T=0 followed by a 1000-frame chunk at frame 800
yields 1000 + (1000 − 200) = 1800 frames. -/
theorem submit_gap_overlap_normalization :
    (∀ (s : AudioPlayer) (f : PCMFormat) (env : SubmitEnv) (ts expected : ℤ)
        (payload : List ℕ),
      s.format = some f → s.clear_requested = false →
      s.playback_state ≠ .PLAYING → f.frame_size ≠ 0 →
      payload.length % f.frame_size = 0 → payload ≠ [] →
      s.expected_next_timestamp = some expected → expected < ts →
      (s.submit env ts payload).queue =
        s.queue ++ [⟨expected, List.replicate
            (((ts - expected) * (f.sample_rate : ℤ) / 1000000).toNat * f.frame_size) 0⟩,
          ⟨ts, payload⟩]) ∧
    (∀ (s : AudioPlayer) (f : PCMFormat) (env : SubmitEnv) (ts expected : ℤ)
        (payload : List ℕ),
      s.format = some f → s.clear_requested = false →
      s.playback_state ≠ .PLAYING → f.frame_size ≠ 0 →
      payload.length % f.frame_size = 0 →
      s.expected_next_timestamp = some expected → ts < expected →
      ((expected - ts) * (f.sample_rate : ℤ) / 1000000).toNat * f.frame_size <
        payload.length →
      (s.submit env ts payload).queue =
        s.queue ++ [⟨expected, payload.drop
          (((expected - ts) * (f.sample_rate : ℤ) / 1000000).toNat * f.frame_size)⟩]) ∧
    (∀ (s : AudioPlayer) (f : PCMFormat) (env : SubmitEnv) (ts expected : ℤ)
        (payload : List ℕ),
      s.format = some f → s.clear_requested = false →
      s.playback_state ≠ .PLAYING → f.frame_size ≠ 0 →
      payload.length % f.frame_size = 0 →
      s.expected_next_timestamp = some expected → ts < expected →
      payload.length ≤
        ((expected - ts) * (f.sample_rate : ℤ) / 1000000).toNat * f.frame_size →
      (s.submit env ts payload).queue = s.queue ∧
      (s.submit env ts payload).expected_next_timestamp = some expected ∧
      (s.submit env ts payload).queued_duration_us = s.queued_duration_us) ∧
    ((p9GapQueue.queue.map fun c => c.audio_data.length).sum = 2000 ∧
      p9GapQueue.queue.map (fun c => c.server_timestamp_us) = [0, 20000, 30000]) ∧
    ((p9OverlapQueue.queue.map fun c => c.audio_data.length).sum = 1800 ∧
      p9OverlapQueue.queue.map (fun c => c.server_timestamp_us) = [0, 20000]) := by
  refine ⟨?_, ?_, ?_, ⟨by decide, by decide⟩, ⟨by decide, by decide⟩⟩
  · intro s f env ts expected payload hf hflag hnp hfs hsz hne hexp hgap
    rw [submit_no_correction s f env ts payload hf hflag hnp hfs hsz]
    have h1 : (s.submitScheduling env ts).expected_next_timestamp = some expected :=
      (submitScheduling_expected s env ts).trans hexp
    simp only [AudioPlayer.submitNormalize, h1]
    rw [if_pos hgap]
    simp only [AudioPlayer.submitEnqueue]
    rw [if_neg (by simpa using hne)]
    simp [submitScheduling_queue]
  · intro s f env ts expected payload hf hflag hnp hfs hsz hexp hover htr
    rw [submit_no_correction s f env ts payload hf hflag hnp hfs hsz]
    have h1 : (s.submitScheduling env ts).expected_next_timestamp = some expected :=
      (submitScheduling_expected s env ts).trans hexp
    simp only [AudioPlayer.submitNormalize, h1]
    rw [if_neg (by omega), if_pos hover]
    rw [if_pos htr]
    simp only [AudioPlayer.submitEnqueue]
    rw [if_neg]
    · simp [submitScheduling_queue]
    · intro h0
      rw [List.length_drop] at h0
      omega
  · intro s f env ts expected payload hf hflag hnp hfs hsz hexp hover htr
    rw [submit_no_correction s f env ts payload hf hflag hnp hfs hsz]
    have h1 : (s.submitScheduling env ts).expected_next_timestamp = some expected :=
      (submitScheduling_expected s env ts).trans hexp
    simp only [AudioPlayer.submitNormalize, h1]
    rw [if_neg (by omega), if_pos hover]
    rw [if_neg (by omega)]
    exact ⟨submitScheduling_queue s env ts, h1, submitScheduling_duration s env ts⟩

set_option maxRecDepth 100000 in
/-- Witness for C3: the gap conjunct applied to the concrete P9 state
(gap of 10,000 µs at 50 kHz gives exactly 500 silence frames). -/
theorem submit_gap_overlap_normalization_witness :
    p9GapQueue.queue =
      p9A.queue ++ [⟨20000, List.replicate
          ((((30000 : ℤ) - 20000) * (50000 : ℕ) / 1000000).toNat * 1) 0⟩,
        ⟨30000, List.replicate 500 1⟩] := by
  have h := submit_gap_overlap_normalization.1 p9A fmt50k
    ⟨0, fun t => t + 10000000, 0⟩ 30000 20000 (List.replicate 500 1)
    (by decide) (by decide) (by decide) (by decide) (by decide) (by decide)
    (by decide) (by decide)
  exact h

/-! ## C4: correction cadence and the 4% rate cap -/

/-- The cadence interval stated by the spec:
`max(1, ⌊rate / min(|e|·rate/1e6 / 2, 0.04·rate)⌋)`. -/
def correctionInterval (f : PCMFormat) (e : ℚ) : ℕ :=
  max (Int.floor ((f.sample_rate : ℚ) /
    min (|e| * f.sample_rate / 1000000 / 2) ((f.sample_rate : ℚ) * (4 / 100)))).toNat 1

/-- C4: whenever the corrector programs a correction cadence
(`2 ms < |e| ≤ 500 ms`), the interval is exactly
`max(1, ⌊rate / min(|e|·rate/1e6/2, 0.04·rate)⌋)`, drops are programmed
for `e > 0` and inserts for `e < 0` with the other cadence zero; in the
deadband (`|e| ≤ 2 ms`) both cadences are cleared; the interval is at
least 25 frames, so the scheduled correction rate `rate / interval`
never exceeds 4% of the sample rate. -/
theorem update_correction_schedule_rate_cap
    (s : AudioPlayer) (f : PCMFormat) (e : ℚ) (now : ℤ)
    (hf : s.format = some f) (hr : 0 < f.sample_rate) :
    (|e| ≤ 2000 →
      (s.update_correction_schedule e now).insert_every_n_frames = 0 ∧
      (s.update_correction_schedule e now).drop_every_n_frames = 0) ∧
    (2000 < |e| → |e| ≤ 500000 →
      ((0 < e →
        (s.update_correction_schedule e now).drop_every_n_frames =
          correctionInterval f e ∧
        (s.update_correction_schedule e now).insert_every_n_frames = 0) ∧
       (e < 0 →
        (s.update_correction_schedule e now).insert_every_n_frames =
          correctionInterval f e ∧
        (s.update_correction_schedule e now).drop_every_n_frames = 0) ∧
       25 ≤ correctionInterval f e ∧
       (f.sample_rate : ℚ) / correctionInterval f e ≤
         (4 / 100) * f.sample_rate)) := by
  have hratq : (0 : ℚ) < f.sample_rate := by exact_mod_cast hr
  constructor
  · intro hdead
    simp only [AudioPlayer.update_correction_schedule, hf]
    rw [if_neg hr.ne', if_pos hdead]
    exact ⟨rfl, rfl⟩
  · intro h2k h5e5
    have habs0 : (0 : ℚ) < |e| := lt_trans (by norm_num) h2k
    have hfr : (0 : ℚ) < |e| * f.sample_rate / 1000000 / 2 := by
      have := mul_pos habs0 hratq
      positivity
    have hmaxc : (0 : ℚ) < (f.sample_rate : ℚ) * (4 / 100) := by positivity
    have hcorr : (0 : ℚ) < min (|e| * f.sample_rate / 1000000 / 2)
        ((f.sample_rate : ℚ) * (4 / 100)) := lt_min hfr hmaxc
    have key : s.update_correction_schedule e now =
        (if (0 : ℚ) < e then
          { s with sync_error_filtered_us := e
                   drop_every_n_frames := correctionInterval f e
                   insert_every_n_frames := 0 }
        else
          { s with sync_error_filtered_us := e
                   insert_every_n_frames := correctionInterval f e
                   drop_every_n_frames := 0 }) := by
      simp only [AudioPlayer.update_correction_schedule, hf]
      rw [if_neg hr.ne', if_neg (not_le.mpr h2k),
        if_neg (fun hcon => absurd hcon.1 (not_lt.mpr h5e5)), if_pos hcorr]
      unfold correctionInterval
      rfl
    have h25 : 25 ≤ correctionInterval f e := by
      have h1 : (25 : ℚ) ≤ (f.sample_rate : ℚ) /
          min (|e| * f.sample_rate / 1000000 / 2) ((f.sample_rate : ℚ) * (4 / 100)) := by
        rw [le_div_iff₀ hcorr]
        have hmle := min_le_right (|e| * f.sample_rate / 1000000 / 2)
          ((f.sample_rate : ℚ) * (4 / 100))
        linarith
      have h2 : (25 : ℤ) ≤ Int.floor ((f.sample_rate : ℚ) /
          min (|e| * f.sample_rate / 1000000 / 2)
            ((f.sample_rate : ℚ) * (4 / 100))) := by
        apply Int.le_floor.mpr
        exact_mod_cast h1
      unfold correctionInterval
      omega
    refine ⟨?_, ?_, h25, ?_⟩
    · intro hepos
      rw [key, if_pos hepos]
      exact ⟨rfl, rfl⟩
    · intro heneg
      rw [key, if_neg (not_lt.mpr heneg.le)]
      exact ⟨rfl, rfl⟩
    · have h25q : (25 : ℚ) ≤ (correctionInterval f e : ℚ) := by exact_mod_cast h25
      have hd := div_le_div_of_nonneg_left (le_of_lt hratq)
        (by norm_num : (0 : ℚ) < 25) h25q
      calc (f.sample_rate : ℚ) / correctionInterval f e ≤ (f.sample_rate : ℚ) / 25 := hd
        _ = (4 / 100) * f.sample_rate := by ring

/-- Witness for C4 at 50 kHz with a 100 ms filtered error from the
concrete `c8Start` state (but with the cooldown not elapsed, so only
the cadence branch is reachable anyway). -/
theorem update_correction_schedule_rate_cap_witness :
    ((c8Start.update_correction_schedule 100000 0).drop_every_n_frames =
      correctionInterval fmt50k 100000 ∧
     (c8Start.update_correction_schedule 100000 0).insert_every_n_frames = 0) ∧
    25 ≤ correctionInterval fmt50k 100000 ∧
    (fmt50k.sample_rate : ℚ) / correctionInterval fmt50k 100000 ≤
      (4 / 100) * fmt50k.sample_rate := by
  have h := (update_correction_schedule_rate_cap c8Start fmt50k 100000 0 rfl
    (by norm_num [fmt50k])).2 (by rw [abs_of_pos] <;> norm_num)
    (by rw [abs_of_pos] <;> norm_num)
  exact ⟨h.1 (by norm_num), h.2.2.1, h.2.2.2⟩

/-! ## C7: volume law -/

/-- The real amplitude product `m · (v/100)^1.5` is the square root of
`m²·v³/10⁶`: the bridge between the exact integer embedding of the
volume scaling and the spec's power-curve formula. -/
theorem amp_eq_sqrt (m v : ℕ) :
    (m : ℝ) * ((v : ℝ) / 100) ^ (1.5 : ℝ) =
      Real.sqrt (((m ^ 2 * v ^ 3 : ℕ) : ℝ) / 1000000) := by
  have hx : (0:ℝ) ≤ (v:ℝ)/100 := by positivity
  have h1 : ((v : ℝ) / 100) ^ (1.5 : ℝ) = Real.sqrt (((v:ℝ)/100) ^ 3) := by
    rw [show (1.5:ℝ) = (3:ℝ) * (1/2) by norm_num, Real.rpow_mul hx,
      show (3:ℝ) = ((3:ℕ):ℝ) by norm_num, Real.rpow_natCast,
      ← Real.sqrt_eq_rpow]
  rw [h1, ← Real.sqrt_sq (by positivity : (0:ℝ) ≤ (m:ℝ)),
    ← Real.sqrt_mul (by positivity)]
  congr 1
  push_cast
  ring

/-- `Nat.sqrt (N / d)` is a lower bound for the real `√(N/d)`. -/
theorem natSqrt_div_le (N d : ℕ) (hd : 0 < d) :
    (Nat.sqrt (N / d) : ℝ) ≤ Real.sqrt ((N : ℝ) / d) := by
  have h0 : Nat.sqrt (N / d) * Nat.sqrt (N / d) ≤ N / d := Nat.sqrt_le (N / d)
  have h1 : ((Nat.sqrt (N / d) : ℝ)) ^ 2 ≤ (N : ℝ) / d := by
    calc ((Nat.sqrt (N / d) : ℝ)) ^ 2 = ((Nat.sqrt (N/d) * Nat.sqrt (N/d) : ℕ) : ℝ) := by
          push_cast; ring
      _ ≤ ((N / d : ℕ) : ℝ) := by exact_mod_cast h0
      _ ≤ (N : ℝ) / d := Nat.cast_div_le
  exact (Real.le_sqrt (Nat.cast_nonneg _) (by positivity)).mpr h1

/-- The real `√(N/d)` is below `Nat.sqrt (N / d) + 1`. -/
theorem lt_natSqrt_div_succ (N d : ℕ) (hd : 0 < d) :
    Real.sqrt ((N : ℝ) / d) < Nat.sqrt (N / d) + 1 := by
  have ha : N / d < (Nat.sqrt (N / d) + 1) * (Nat.sqrt (N / d) + 1) :=
    Nat.lt_succ_sqrt (N / d)
  have hmod := Nat.div_add_mod N d
  have hmlt := Nat.mod_lt N hd
  have hb : (N : ℝ) / d < ((N / d : ℕ) : ℝ) + 1 := by
    rw [div_lt_iff₀ (by exact_mod_cast hd)]
    have h2 : (N:ℝ) = d * ((N/d : ℕ):ℝ) + ((N % d : ℕ):ℝ) := by exact_mod_cast hmod.symm
    rw [h2]
    have h3 : ((N % d : ℕ):ℝ) < (d:ℝ) := by exact_mod_cast hmlt
    ring_nf
    nlinarith [h3]
  have hc : ((N / d : ℕ) : ℝ) + 1 ≤ ((Nat.sqrt (N / d) : ℝ) + 1) ^ 2 := by
    have h4 : N / d + 1 ≤ (Nat.sqrt (N / d) + 1) * (Nat.sqrt (N / d) + 1) := ha
    calc ((N / d : ℕ) : ℝ) + 1 ≤ ((Nat.sqrt (N/d) + 1) * (Nat.sqrt (N/d) + 1) : ℕ) := by
          exact_mod_cast h4
      _ = ((Nat.sqrt (N / d) : ℝ) + 1) ^ 2 := by push_cast; ring
  have hlt : (N : ℝ) / d < ((Nat.sqrt (N / d) : ℝ) + 1) ^ 2 := lt_of_lt_of_le hb hc
  have h5 := Real.sqrt_lt_sqrt (by positivity) hlt
  rwa [Real.sqrt_sq (by positivity)] at h5

/-- For levels up to 99, the scaled magnitude never exceeds the input
magnitude (the amplitude is below 1, so the `int16` cast can never
overflow: the claim's saturation clause is unreachable). -/
theorem scaledMagnitude_le_self (m v : ℕ) (hv : v ≤ 99) : scaledMagnitude m v ≤ m := by
  unfold scaledMagnitude
  have h1 : m ^ 2 * v ^ 3 / 1000000 ≤ m ^ 2 := by
    have hv3 : v ^ 3 ≤ 1000000 :=
      le_trans (Nat.pow_le_pow_left hv 3) (by norm_num)
    calc m ^ 2 * v ^ 3 / 1000000 ≤ m ^ 2 * 1000000 / 1000000 :=
          Nat.div_le_div_right (Nat.mul_le_mul_left _ hv3)
      _ = m ^ 2 := Nat.mul_div_cancel _ (by norm_num)
  calc Nat.sqrt (m ^ 2 * v ^ 3 / 1000000) ≤ Nat.sqrt (m ^ 2) := Nat.sqrt_le_sqrt h1
    _ = m := Nat.sqrt_eq' m

/-- C7: volume application satisfies the volume law — muted or level 0
zeroes the whole buffer; level 100 leaves it untouched byte-for-byte;
levels 1..99 scale every 16-bit sample by `(level/100)^1.5` (truncated
toward zero, as the numpy `int16` cast does), the result always stays in
the `int16` range (so the saturation clause is vacuous), and the peak
output for a full-scale input sample equals `(level/100)^1.5 · 32767`
within one LSB. -/
theorem apply_volume_law (muted : Bool) (volume : ℕ) (samples : List ℤ) :
    ((muted = true ∨ volume = 0) →
      apply_volume muted volume samples = samples.map fun _ => (0 : ℤ)) ∧
    (muted = false → volume = 100 → apply_volume muted volume samples = samples) ∧
    (muted = false → 1 ≤ volume → volume ≤ 99 →
      apply_volume muted volume samples = samples.map (scaleSample volume) ∧
      (∀ x ∈ samples, -32768 ≤ x → x ≤ 32767 →
        -32768 ≤ scaleSample volume x ∧ scaleSample volume x ≤ 32767) ∧
      |((scaleSample volume 32767 : ℤ) : ℝ) -
        32767 * ((volume : ℝ) / 100) ^ (1.5 : ℝ)| < 1) := by
  refine ⟨?_, ?_, ?_⟩
  · intro h
    unfold apply_volume
    rw [if_pos h]
  · intro hm h100
    unfold apply_volume
    rw [if_neg (by simp [hm, h100]), if_pos h100]
  · intro hm h1 h99
    have hne0 : volume ≠ 0 := by omega
    have hne100 : volume ≠ 100 := by omega
    refine ⟨?_, ?_, ?_⟩
    · unfold apply_volume
      rw [if_neg (by simp [hm, hne0]), if_neg hne100]
    · intro x hx hlo hhi
      unfold scaleSample
      split
      · have hb : scaledMagnitude x.toNat volume ≤ x.toNat :=
          scaledMagnitude_le_self _ _ h99
        omega
      · have hb : scaledMagnitude (-x).toNat volume ≤ (-x).toNat :=
          scaledMagnitude_le_self _ _ h99
        omega
    · have h0 : scaleSample volume 32767 = (scaledMagnitude 32767 volume : ℤ) := by
        unfold scaleSample
        rw [if_pos (by norm_num)]
        rfl
      rw [h0, show (32767:ℝ) = ((32767:ℕ):ℝ) by norm_num, amp_eq_sqrt 32767 volume]
      have hle := natSqrt_div_le (32767 ^ 2 * volume ^ 3) 1000000 (by norm_num)
      have hlt := lt_natSqrt_div_succ (32767 ^ 2 * volume ^ 3) 1000000 (by norm_num)
      rw [abs_lt]
      unfold scaledMagnitude
      push_cast at hle hlt ⊢
      constructor
      · linarith
      · linarith

/-- Witness for C7 at concrete inputs: mute zeroes, level 100 is the
identity, level 50 scales with the peak within one LSB. -/
theorem apply_volume_law_witness :
    apply_volume true 80 [5, -7] = [0, 0] ∧
    apply_volume false 100 [5, -7] = [5, -7] ∧
    apply_volume false 50 [32767] = [32767].map (scaleSample 50) ∧
    |((scaleSample 50 32767 : ℤ) : ℝ) - 32767 * ((50 : ℝ) / 100) ^ (1.5 : ℝ)| < 1 := by
  have h := apply_volume_law true 80 [5, -7]
  have h2 := apply_volume_law false 100 [5, -7]
  have h3 := apply_volume_law false 50 [32767]
  exact ⟨by simpa using h.1 (Or.inl rfl), h2.2.1 rfl rfl,
    (h3.2.2 rfl (by norm_num) (by norm_num)).1,
    (h3.2.2 rfl (by norm_num) (by norm_num)).2.2⟩

def tsNonneg (s : AudioPlayer) : Prop :=
  0 ≤ s.server_ts_cursor_us ∧ ∀ c ∈ s.queue, 0 ≤ c.server_timestamp_us

def CursorStep (s t : AudioPlayer) : Prop :=
  tsNonneg s → s.server_ts_cursor_us ≤ t.server_ts_cursor_us ∧ tsNonneg t

theorem CursorStep.refl' (s : AudioPlayer) : CursorStep s s := fun h => ⟨le_refl _, h⟩

theorem CursorStep.trans' {a b c : AudioPlayer} (h1 : CursorStep a b)
    (h2 : CursorStep b c) : CursorStep a c := by
  intro h
  obtain ⟨l1, n1⟩ := h1 h
  obtain ⟨l2, n2⟩ := h2 n1
  exact ⟨le_trans l1 l2, n2⟩

theorem advance_cursorStep (s : AudioPlayer) (n : ℕ) :
    CursorStep s (s.advance_server_cursor_frames n) := by
  intro h
  unfold AudioPlayer.advance_server_cursor_frames
  split
  · exact ⟨le_refl _, h⟩
  · split
    · exact ⟨le_refl _, h⟩
    · dsimp only
      split
      · refine ⟨le_add_of_nonneg_right (Int.ofNat_nonneg _),
          le_trans h.1 (le_add_of_nonneg_right (Int.ofNat_nonneg _)), h.2⟩
      · exact ⟨le_refl _, h⟩

theorem initialize_cursorStep (s : AudioPlayer) :
    CursorStep s s.initialize_current_chunk := by
  intro h
  unfold AudioPlayer.initialize_current_chunk
  split
  · exact ⟨le_refl _, h⟩
  · rename_i c rest heq
    dsimp only
    split
    · rename_i hz
      have hz' : s.server_ts_cursor_us = 0 := hz
      have hc : (0:ℤ) ≤ c.server_timestamp_us := h.2 c (heq ▸ List.mem_cons_self c rest)
      refine ⟨hz' ▸ hc, hc, ?_⟩
      intro d hd
      exact h.2 d (heq ▸ List.mem_cons_of_mem c hd)
    · refine ⟨le_refl _, h.1, ?_⟩
      intro d hd
      exact h.2 d (heq ▸ List.mem_cons_of_mem c hd)

theorem advance_finished_cursorStep (s : AudioPlayer) :
    CursorStep s s.advance_finished_chunk := by
  intro h
  unfold AudioPlayer.advance_finished_chunk
  split
  · exact ⟨le_refl _, h⟩
  · exact ⟨le_refl _, h⟩

theorem read_one_cursorStep (s : AudioPlayer) :
    CursorStep s (s.read_one_input_frame).1 := by
  unfold AudioPlayer.read_one_input_frame
  split
  · exact CursorStep.refl' s
  · rename_i f heqf
    split
    · exact CursorStep.refl' s
    · dsimp only
      have hs1 : CursorStep s (if s.current_chunk = none then
          (if s.queue = [] then s else s.initialize_current_chunk) else s) := by
        split
        · split
          · exact CursorStep.refl' s
          · exact initialize_cursorStep s
        · exact CursorStep.refl' s
      generalize hg : (if s.current_chunk = none then
          (if s.queue = [] then s else s.initialize_current_chunk) else s) = s1 at hs1
      split
      · exact hs1
      · rename_i c heqc
        split
        · exact hs1.trans' (advance_finished_cursorStep s1)
        · dsimp only
          have hmid : CursorStep s1 { s1 with current_chunk_offset := min (s1.current_chunk_offset + f.frame_size) c.audio_data.length } := fun h => ⟨le_refl _, h⟩
          split
          · exact hs1.trans' ((hmid.trans' (advance_cursorStep _ 1)).trans'
              (advance_finished_cursorStep _))
          · exact hs1.trans' (hmid.trans' (advance_cursorStep _ 1))

theorem readBulkGo_cursorStep (f : PCMFormat) (total : ℕ) :
    ∀ (fuel : ℕ) (s : AudioPlayer) (acc : List ℕ),
      CursorStep s (readBulkGo f total fuel s acc).1 := by
  intro fuel
  induction fuel with
  | zero =>
    intro s acc
    exact CursorStep.refl' s
  | succ n ih =>
    intro s acc
    rw [readBulkGo]
    split
    · exact CursorStep.refl' s
    · split
      · split
        · exact CursorStep.refl' s
        · exact (initialize_cursorStep s).trans' (ih _ _)
      · dsimp only
        refine CursorStep.trans' ?_ (ih _ _)
        split
        · refine CursorStep.trans' ?_ (advance_finished_cursorStep _)
          refine CursorStep.trans' ?_ (advance_cursorStep _ _)
          exact fun h => ⟨le_refl _, h⟩
        · refine CursorStep.trans' ?_ (advance_cursorStep _ _)
          exact fun h => ⟨le_refl _, h⟩

theorem read_bulk_cursorStep (s : AudioPlayer) (n fuel : ℕ) :
    CursorStep s (s.read_input_frames_bulk n fuel).1 := by
  unfold AudioPlayer.read_input_frames_bulk
  split
  · exact CursorStep.refl' s
  · rename_i f heqf
    split
    · exact CursorStep.refl' s
    · dsimp only
      rcases hr : readBulkGo f (n * f.frame_size) fuel s [] with ⟨s1, acc, padded⟩
      have h := readBulkGo_cursorStep f (n * f.frame_size) fuel s []
      rw [hr] at h
      simp only [hr]
      split
      · exact h.trans' (fun hh => ⟨le_refl _, hh⟩)
      · exact h

theorem skipGo_cursorStep (f : PCMFormat) :
    ∀ (fuel : ℕ) (s : AudioPlayer) (k : ℕ), CursorStep s (skipGo f fuel s k) := by
  intro fuel
  induction fuel with
  | zero =>
    intro s k
    exact CursorStep.refl' s
  | succ n ih =>
    intro s k
    rw [skipGo]
    split
    · exact CursorStep.refl' s
    · split
      · split
        · exact CursorStep.refl' s
        · exact (initialize_cursorStep s).trans' (ih _ _)
      · dsimp only
        split
        · exact (advance_finished_cursorStep s).trans' (ih _ _)
        · refine CursorStep.trans' ?_ (ih _ _)
          split
          · refine CursorStep.trans' ?_ (advance_finished_cursorStep _)
            refine CursorStep.trans' ?_ (advance_cursorStep _ _)
            exact fun h => ⟨le_refl _, h⟩
          · refine CursorStep.trans' ?_ (advance_cursorStep _ _)
            exact fun h => ⟨le_refl _, h⟩

theorem skip_cursorStep (s : AudioPlayer) (k fuel : ℕ) :
    CursorStep s (s.skip_input_frames k fuel) := by
  unfold AudioPlayer.skip_input_frames
  split
  · exact CursorStep.refl' s
  · split
    · exact CursorStep.refl' s
    · exact skipGo_cursorStep _ _ s _

theorem update_position_cursorStep (s : AudioPlayer) (env : CallbackEnv)
    (t : Option TimeInfo) :
    CursorStep s (s.update_playback_position_from_dac env t) := by
  intro h
  unfold AudioPlayer.update_playback_position_from_dac
  split
  · exact ⟨le_refl _, h⟩
  · dsimp only
    repeat' split
    all_goals exact ⟨le_refl _, h⟩

theorem read_bulk_eq_cursorStep {s t : AudioPlayer} {n fuel : ℕ} {d : List ℕ}
    (h : s.read_input_frames_bulk n fuel = (t, d)) : CursorStep s t := by
  have h2 := read_bulk_cursorStep s n fuel
  rw [h] at h2
  exact h2

theorem read_one_eq_cursorStep {s t : AudioPlayer} {fr : Option (List ℕ)}
    (h : s.read_one_input_frame = (t, fr)) : CursorStep s t := by
  have h2 := read_one_cursorStep s
  rw [h] at h2
  exact h2

theorem slowGoTail_cursorStep (f : PCMFormat) (iN dN n : ℕ)
    (ih : ∀ s ic dc rem acc, CursorStep s (slowGo f iN dN n s ic dc rem acc).1)
    (s : AudioPlayer) (p : AudioPlayer × ℤ × ℤ × ℕ × List ℕ)
    (hp : CursorStep s p.1) :
    CursorStep s ((if p.2.2.2.1 = 0 then (p.1, p.2.1, p.2.2.1, p.2.2.2.2)
      else if p.2.2.1 ≤ 0 ∧ 0 < dN then
        slowGo f iN dN n ((p.1.read_one_input_frame).1.read_one_input_frame).1
          (p.2.1 - 1) (dN : ℤ) (p.2.2.2.1 - 1)
          (p.2.2.2.2 ++ ((p.1.read_one_input_frame).1.read_one_input_frame).1.last_output_frame)
      else if p.2.1 ≤ 0 ∧ 0 < iN then
        slowGo f iN dN n p.1 ((iN : ℤ)) (p.2.2.1 - 1) (p.2.2.2.1 - 1)
          (p.2.2.2.2 ++ p.1.last_output_frame)
      else (p.1, p.2.1, p.2.2.1, p.2.2.2.2)).1) := by
  split
  · exact hp
  · split
    · exact hp.trans' (((read_one_cursorStep p.1).trans'
        (read_one_cursorStep (p.1.read_one_input_frame).1)).trans' (ih _ _ _ _ _))
    · split
      · exact hp.trans' (ih _ _ _ _ _)
      · exact hp

theorem slowGo_cursorStep (f : PCMFormat) (iN dN : ℕ) :
    ∀ (fuel : ℕ) (s : AudioPlayer) (ic dc : ℤ) (rem : ℕ) (acc : List ℕ),
      CursorStep s (slowGo f iN dN fuel s ic dc rem acc).1 := by
  intro fuel
  induction fuel with
  | zero =>
    intro s ic dc rem acc
    exact CursorStep.refl' s
  | succ n ih =>
    intro s ic dc rem acc
    rw [slowGo]
    split
    · exact CursorStep.refl' s
    · dsimp only
      refine slowGoTail_cursorStep f iN dN n ih s _ ?_
      split <;> split <;> split
      all_goals first
        | exact read_bulk_cursorStep s _ _
        | exact CursorStep.refl' s

theorem slowGo_eq_cursorStep {f : PCMFormat} {iN dN fuel : ℕ} {s t : AudioPlayer}
    {ic dc ic1 dc1 : ℤ} {rem : ℕ} {acc d : List ℕ}
    (h : slowGo f iN dN fuel s ic dc rem acc = (t, ic1, dc1, d)) : CursorStep s t := by
  have h2 := slowGo_cursorStep f iN dN fuel s ic dc rem acc
  rw [h] at h2
  exact h2

theorem slowGoWrap_cursorStep (f : PCMFormat) (iN dN fuel : ℕ) (s X : AudioPlayer)
    (ic dc : ℤ) (rem : ℕ) (acc : List ℕ) (a b : ℤ)
    (hX : CursorStep s X) :
    CursorStep s { (slowGo f iN dN fuel X ic dc rem acc).1 with
      frames_until_next_insert := a, frames_until_next_drop := b } := by
  intro h
  have h2 := (hX.trans' (slowGo_cursorStep f iN dN fuel X ic dc rem acc)) h
  exact ⟨h2.1, h2.2⟩

theorem callbackRead_cursorStep (s : AudioPlayer) (f : PCMFormat) (frames bw : ℕ) :
    CursorStep s (AudioPlayer.audio_callback.callbackRead s f frames bw).1 := by
  unfold AudioPlayer.audio_callback.callbackRead
  dsimp only
  split
  · exact read_bulk_cursorStep s _ _
  · split <;> split <;> split <;>
      refine slowGoWrap_cursorStep f _ _ _ s _ _ _ _ _ _ _ ?_ <;>
      exact fun hh => ⟨le_refl _, hh⟩

theorem gating_cursorStep (s : AudioPlayer) (bw frames : ℕ) (t : Option TimeInfo)
    (lnow : ℤ) : CursorStep s (s.handle_start_gating bw frames t lnow).1 := by
  unfold AudioPlayer.handle_start_gating
  split
  · exact CursorStep.refl' s
  · dsimp only
    split
    · exact CursorStep.refl' s
    · try dsimp only
      repeat' split
      all_goals try dsimp only
      all_goals first
        | exact fun h => ⟨le_refl _, h⟩
        | exact fun h => ⟨(skip_cursorStep s _ _ h).1, (skip_cursorStep s _ _ h).2⟩

theorem audio_callback_cursorStep (s : AudioPlayer) (env : CallbackEnv) (frames : ℕ)
    (t : Option TimeInfo) (st : CallbackStatus) :
    CursorStep s (s.audio_callback env frames t st).1 := by
  unfold AudioPlayer.audio_callback
  split
  · exact CursorStep.refl' s
  · dsimp only
    split
    · exact fun h => ⟨le_refl _, h⟩
    · split
      · try dsimp only
        split
        · exact (update_position_cursorStep s env t).trans'
            (gating_cursorStep _ _ _ _ _)
        · exact (update_position_cursorStep s env t).trans'
            ((gating_cursorStep _ _ _ _ _).trans' (callbackRead_cursorStep _ _ _ _))
      · exact (update_position_cursorStep s env t).trans'
          (callbackRead_cursorStep _ _ _ _)

theorem nat_div_carry (a b c : ℕ) : a / c + (a % c + b) / c = (a + b) / c := by
  rcases c with _ | c
  · simp
  · conv_rhs => rw [← Nat.div_add_mod a (c + 1)]
    rw [Nat.add_assoc, Nat.mul_add_div (Nat.succ_pos c)]

theorem nat_mod_carry (a b c : ℕ) : (a % c + b) % c = (a + b) % c :=
  (Nat.mod_modEq a c).add_right b

theorem advance_format (s : AudioPlayer) (n : ℕ) :
    (s.advance_server_cursor_frames n).format = s.format := by
  unfold AudioPlayer.advance_server_cursor_frames
  split
  · rfl
  · dsimp only
    split
    · rfl
    · split <;> rfl

theorem advance_zero (s : AudioPlayer) : s.advance_server_cursor_frames 0 = s := by
  unfold AudioPlayer.advance_server_cursor_frames
  split
  · rfl
  · simp

theorem advance_formula (s : AudioPlayer) (f : PCMFormat) (hf : s.format = some f)
    (n : ℕ) (hn : n ≠ 0) :
    (s.advance_server_cursor_frames n).server_ts_cursor_us
      = s.server_ts_cursor_us
        + ((s.server_ts_cursor_remainder + n * 1000000) / f.sample_rate : ℕ) ∧
    (s.advance_server_cursor_frames n).server_ts_cursor_remainder
      = (s.server_ts_cursor_remainder + n * 1000000) % f.sample_rate := by
  unfold AudioPlayer.advance_server_cursor_frames
  rw [hf]
  dsimp only
  rw [if_neg hn]
  split
  · exact ⟨rfl, rfl⟩
  · rename_i hlt
    constructor
    · show s.server_ts_cursor_us = s.server_ts_cursor_us
        + ((s.server_ts_cursor_remainder + n * 1000000) / f.sample_rate : ℕ)
      rw [Nat.div_eq_of_lt (lt_of_not_le hlt)]
      simp
    · show s.server_ts_cursor_remainder + n * 1000000
        = (s.server_ts_cursor_remainder + n * 1000000) % f.sample_rate
      rw [Nat.mod_eq_of_lt (lt_of_not_le hlt)]

/-- A sequence of `_advance_server_cursor_frames` calls with the given
per-read frame counts. -/
def advanceList (s : AudioPlayer) : List ℕ → AudioPlayer
  | [] => s
  | n :: ns => advanceList (s.advance_server_cursor_frames n) ns

set_option maxRecDepth 4000 in
theorem advanceList_formula (f : PCMFormat) (ns : List ℕ) :
    ∀ s : AudioPlayer, s.format = some f →
    s.server_ts_cursor_remainder % f.sample_rate = s.server_ts_cursor_remainder →
    (advanceList s ns).server_ts_cursor_us
      = s.server_ts_cursor_us
        + ((s.server_ts_cursor_remainder + ns.sum * 1000000) / f.sample_rate : ℕ) ∧
    (advanceList s ns).server_ts_cursor_remainder
      = (s.server_ts_cursor_remainder + ns.sum * 1000000) % f.sample_rate := by
  induction ns with
  | nil =>
    intro s hf hr
    constructor
    · show s.server_ts_cursor_us = _
      rcases Nat.eq_zero_or_pos f.sample_rate with h0 | hpos
      · simp [h0]
      · have : s.server_ts_cursor_remainder < f.sample_rate := by
          by_contra hge
          have := Nat.mod_lt s.server_ts_cursor_remainder hpos
          omega
        rw [List.sum_nil]
        simp [Nat.div_eq_of_lt this]
    · show s.server_ts_cursor_remainder = _
      rw [List.sum_nil]
      simpa using hr.symm
  | cons n ns ih =>
    intro s hf hr
    simp only [advanceList]
    by_cases hn : n = 0
    · subst hn
      rw [advance_zero]
      have h := ih s hf hr
      simpa using h
    · have hform := advance_formula s f hf n hn
      have hfmt2 : (s.advance_server_cursor_frames n).format = some f := by
        rw [advance_format, hf]
      have hr2 : (s.advance_server_cursor_frames n).server_ts_cursor_remainder
          % f.sample_rate
          = (s.advance_server_cursor_frames n).server_ts_cursor_remainder := by
        rw [hform.2]
        exact Nat.mod_mod_of_dvd _ (dvd_refl _)
      have hmain := ih (s.advance_server_cursor_frames n) hfmt2 hr2
      have he : s.server_ts_cursor_remainder + n * 1000000 + ns.sum * 1000000
          = s.server_ts_cursor_remainder + (n + ns.sum) * 1000000 := by ring
      constructor
      · rw [List.sum_cons, hmain.1, hform.1, hform.2, add_assoc, ← Nat.cast_add,
          nat_div_carry, he]
      · rw [List.sum_cons, hmain.2, hform.2, nat_mod_carry, he]

theorem submitEnqueue_cursor (s : AudioPlayer) (f : PCMFormat) (ts : ℤ)
    (payload : List ℕ) :
    (AudioPlayer.submitEnqueue s f ts payload).server_ts_cursor_us
      = s.server_ts_cursor_us := by
  unfold AudioPlayer.submitEnqueue
  split
  · rfl
  · rfl

theorem submitNormalize_cursor (s : AudioPlayer) (f : PCMFormat) (ts : ℤ)
    (payload : List ℕ) :
    (AudioPlayer.submitNormalize s f ts payload).server_ts_cursor_us
      = s.server_ts_cursor_us := by
  unfold AudioPlayer.submitNormalize
  split
  · rw [submitEnqueue_cursor]
  · dsimp only
    split
    · rw [submitEnqueue_cursor]
    · split
      · split
        · rw [submitEnqueue_cursor]
        · rfl
      · rw [submitEnqueue_cursor]

theorem submit_cursor_cases (s : AudioPlayer) (env : SubmitEnv) (ts : ℤ)
    (payload : List ℕ) :
    (s.submit env ts payload).server_ts_cursor_us = s.server_ts_cursor_us ∨
    (s.submit env ts payload).server_ts_cursor_us = 0 := by
  unfold AudioPlayer.submit
  dsimp only
  by_cases hcr : s.clear_requested = true
  · rw [if_pos hcr]
    right
    split
    · rfl
    · split
      · rfl
      · split
        · rfl
        · rw [submitNormalize_cursor]
          split
          · rcases update_correction_cursor_cases _ env.filtered_error_us env.now_us
              with h | h
            · rw [h, submitScheduling_cursor]
              rfl
            · exact h
          · rw [submitScheduling_cursor]
            rfl
  · rw [if_neg hcr]
    split
    · left
      rfl
    · split
      · left
        rfl
      · split
        · left
          rfl
        · rw [submitNormalize_cursor]
          split
          · rcases update_correction_cursor_cases _ env.filtered_error_us env.now_us
              with h | h
            · left
              rw [h, submitScheduling_cursor]
            · right
              exact h
          · left
            rw [submitScheduling_cursor]

/-- C5: the server cursor is advanced per `n`-frame read by
`us += ⌊(rem + n·1e6)/sample_rate⌋` with the remainder carrying the
modulus; any sequence of reads totalling `N` frames from a zero
remainder lands the cursor exactly on `T0 + ⌊N·1e6/sample_rate⌋`; the
cursor strictly increases on every nonempty advance when the sample
rate is positive and at most 1e6 Hz; it is non-decreasing across any
callback invocation (on nonnegative-timestamp states), and a `submit`
call either leaves it unchanged or resets it to zero via `clear`. -/
theorem server_cursor_exact_monotone :
    (∀ (s : AudioPlayer) (f : PCMFormat) (n : ℕ), s.format = some f → n ≠ 0 →
      (s.advance_server_cursor_frames n).server_ts_cursor_us
        = s.server_ts_cursor_us
          + ((s.server_ts_cursor_remainder + n * 1000000) / f.sample_rate : ℕ) ∧
      (s.advance_server_cursor_frames n).server_ts_cursor_remainder
        = (s.server_ts_cursor_remainder + n * 1000000) % f.sample_rate) ∧
    (∀ (s : AudioPlayer) (f : PCMFormat) (ns : List ℕ), s.format = some f →
      s.server_ts_cursor_remainder = 0 →
      (advanceList s ns).server_ts_cursor_us
        = s.server_ts_cursor_us + ((ns.sum * 1000000) / f.sample_rate : ℕ)) ∧
    (∀ (s : AudioPlayer) (f : PCMFormat) (n : ℕ), s.format = some f → n ≠ 0 →
      0 < f.sample_rate → f.sample_rate ≤ 1000000 →
      s.server_ts_cursor_us
        < (s.advance_server_cursor_frames n).server_ts_cursor_us) ∧
    (∀ (s : AudioPlayer) (env : CallbackEnv) (frames : ℕ) (t : Option TimeInfo)
      (st : CallbackStatus), tsNonneg s →
      s.server_ts_cursor_us
        ≤ (s.audio_callback env frames t st).1.server_ts_cursor_us) ∧
    (∀ (s : AudioPlayer) (env : SubmitEnv) (ts : ℤ) (payload : List ℕ),
      (s.submit env ts payload).server_ts_cursor_us = s.server_ts_cursor_us ∨
      (s.submit env ts payload).server_ts_cursor_us = 0) := by
  refine ⟨fun s f n hf hn => advance_formula s f hf n hn, ?_, ?_, ?_,
    submit_cursor_cases⟩
  · intro s f ns hf hr
    have h := (advanceList_formula f ns s hf (by rw [hr]; exact Nat.zero_mod _)).1
    rw [h, hr, Nat.zero_add]
  · intro s f n hf hn hrate hle
    have h := (advance_formula s f hf n hn).1
    rw [h]
    have hpos : 0 < (s.server_ts_cursor_remainder + n * 1000000) / f.sample_rate :=
      Nat.div_pos (le_trans (le_trans hle
        (Nat.le_mul_of_pos_left 1000000 (Nat.pos_of_ne_zero hn)))
        (Nat.le_add_left _ _)) hrate
    have hz : (0 : ℤ)
        < ((s.server_ts_cursor_remainder + n * 1000000) / f.sample_rate : ℕ) := by
      exact_mod_cast hpos
    omega
  · intro s env frames t st hts
    exact ((audio_callback_cursorStep s env frames t st) hts).1

/-- Witness for C5: from the fresh 50 kHz player, a one-frame advance
strictly increases the cursor. -/
theorem server_cursor_exact_monotone_witness :
    (initPlayer (some fmt50k)).server_ts_cursor_us
      < ((initPlayer (some fmt50k)).advance_server_cursor_frames
          1).server_ts_cursor_us :=
  server_cursor_exact_monotone.2.2.1 (initPlayer (some fmt50k)) fmt50k 1 rfl
    (by decide) (by decide) (by decide)

/-! ## C1: start gating inside the buffer -/

/-- A 50 kHz player waiting to start: DAC target 1050 µs, one queued
4-frame chunk; a 4-frame callback buffer starting at DAC time 1000 µs
covers 1000–1080 µs, so the target falls strictly inside it. -/
def c1S : AudioPlayer :=
  { initPlayer (some fmt50k) with
    playback_state := .WAITING_FOR_START
    scheduled_start_loop_time_us := some 900
    scheduled_start_dac_time_us := some 1050
    queue := [⟨2000, [5, 5, 5, 5]⟩]
    queued_duration_us := 80
    expected_next_timestamp := some 2080
    first_server_timestamp_us := some 2000 }

/-- C1 counterexample: the scheduled DAC target (1050 µs) falls strictly
inside the callback buffer (DAC times 1000–1080 µs, 20 µs per frame),
yet the callback emits a whole buffer of silence and the player is still
in `WAITING_FOR_START` afterwards — real audio does not begin at the
in-buffer sample offset and the `PLAYING` transition does not happen in
that callback. -/
theorem start_gating_counterexample :
    (1000 : ℤ) < 1050 ∧ (1050 : ℤ) < 1000 + 4 * (1000000 / 50000) ∧
    (c1S.audio_callback ⟨1000, fun t => t, fun t => t⟩ 4 (some ⟨1000⟩)
        ⟨false, false⟩).2 = [0, 0, 0, 0] ∧
    (c1S.audio_callback ⟨1000, fun t => t, fun t => t⟩ 4 (some ⟨1000⟩)
        ⟨false, false⟩).1.playback_state = .WAITING_FOR_START := by
  decide

/-- C1 (amended): DAC start gating is per-callback-buffer, not
per-sample.  While the first sample's DAC time is strictly before the
target, the gating helper leaves the state untouched (in particular it
stays `WAITING_FOR_START`) and accounts
`min(ceil((target-now)·rate/1e6), frames)` silence frames, and the
whole callback output is silence; `PLAYING` is armed only in a callback
whose buffer start has reached the target. -/
theorem start_gating_amended :
    (∀ (s : AudioPlayer) (f : PCMFormat) (bw frames : ℕ) (ti : TimeInfo)
      (lnow D : ℤ), s.format = some f →
      s.scheduled_start_dac_time_us = some D →
      0 < ti.outputBufferDacTime_us → ti.outputBufferDacTime_us < D →
      (s.handle_start_gating bw frames (some ti) lnow).1 = s ∧
      (s.handle_start_gating bw frames (some ti) lnow).2
        = bw + min (((D - ti.outputBufferDacTime_us) * f.sample_rate + 999999)
            / 1000000).toNat frames * f.frame_size) ∧
    (∀ (s : AudioPlayer) (f : PCMFormat) (bw frames : ℕ) (ti : TimeInfo)
      (lnow D : ℤ), s.format = some f →
      s.scheduled_start_dac_time_us = some D →
      0 < ti.outputBufferDacTime_us → D ≤ ti.outputBufferDacTime_us →
      (s.handle_start_gating bw frames (some ti) lnow).1.playback_state
        = .PLAYING) ∧
    (∀ (s : AudioPlayer) (env : CallbackEnv) (frames : ℕ) (t : Option TimeInfo)
      (st : CallbackStatus) (f : PCMFormat), s.format = some f →
      st.input_underflow = false → st.output_underflow = false →
      ((s.update_playback_position_from_dac env t).handle_start_gating 0 frames t
          env.loop_time_us).1.playback_state = .WAITING_FOR_START →
      (s.update_playback_position_from_dac env t).playback_state
        = .WAITING_FOR_START →
      ∀ x ∈ (s.audio_callback env frames t st).2, x = 0) := by
  refine ⟨?_, ?_, ?_⟩
  · intro s f bw frames ti lnow D hf hd hpos hlt
    unfold AudioPlayer.handle_start_gating
    rw [hf]
    dsimp only
    rw [hd]
    dsimp only
    rw [if_pos hpos]
    dsimp only
    rw [if_pos (by omega : (0 : ℤ) < D - ti.outputBufferDacTime_us)]
    dsimp only
    rw [if_neg (by omega : ¬ D ≤ ti.outputBufferDacTime_us)]
    exact ⟨rfl, rfl⟩
  · intro s f bw frames ti lnow D hf hd hpos hle
    unfold AudioPlayer.handle_start_gating
    rw [hf]
    dsimp only
    rw [hd]
    dsimp only
    rw [if_pos hpos]
    dsimp only
    rw [if_pos hle]
  · intro s env frames t st f hf hiu hou hgate hwait
    unfold AudioPlayer.audio_callback
    rw [hf]
    dsimp only
    rw [if_neg (by simp [hiu, hou])]
    try dsimp only
    rw [if_pos hwait]
    try dsimp only
    rw [if_pos hgate]
    intro x hx
    rcases List.mem_append.mp hx with h | h <;> exact List.eq_of_mem_replicate h

/-- Witness for C1 (amended): once the buffer start has reached the DAC
target, the gating call arms `PLAYING`. -/
theorem start_gating_amended_witness :
    (c1S.handle_start_gating 0 4 (some ⟨1100⟩) 0).1.playback_state
      = .PLAYING :=
  start_gating_amended.2.1 c1S fmt50k 0 4 ⟨1100⟩ 0 1050 rfl rfl
    (by decide) (by decide)
